import Mathlib

/-!
Verification of the segoport ephemeris core (a Go port of the Swiss
Ephemeris) against its natural-language specification.

The Go source is shallowly embedded in Lean: pure floating-point
computations are modelled in exact real (`ℝ`) or rational (`ℚ`)
arithmetic, slices become functions or structures, and the mutable
nutation-interpolation cache becomes explicit state passing.  Function
and constant names follow the source (part_003, part_004 of the
repository, and the calendar functions reproduced in the README).
-/

namespace Segoport

/-! ### Constants (src/unnamed/part_003, internal/sweodefh.go) -/

noncomputable section

/-- `J2000 = 2451545.0`, 2000 January 1.5 (part_003). -/
def J2000 : ℝ := 2451545.0

/-- `DEGTORAD = M_PI / 180.0` (sweodefh.go). -/
def DEGTORAD : ℝ := Real.pi / 180.0

/-- `B1850 = 2396758.2035810` (part_003). -/
def B1850 : ℝ := 2396758.2035810

/-- `TWOPI = 2.0 * PI` (part_003). -/
def TWOPI : ℝ := 2.0 * Real.pi

end

/-! ### Model-selection constants.

Modelled from the spec: the `SEMOD_*` and `SEFLG_*` constants of the
original `swephexp.h` are referenced by the ported code in
src/unnamed/part_004 but their defining header is not part of the
repository snapshot.  The spec (§4.5, §4.6, §4.7) lists the precession,
nutation, bias and JPL-Horizons modes as a closed set of distinct named
models; all code under verification uses the constants only through
equality tests and through bit-tests against flag masks, so the choice
of distinct numerals below is faithful to both the spec and the code. -/

def SEMOD_PREC_IAU_1976 : ℤ := 1
def SEMOD_PREC_LASKAR_1986 : ℤ := 2
def SEMOD_PREC_WILL_EPS_LASK : ℤ := 3
def SEMOD_PREC_WILLIAMS_1994 : ℤ := 4
def SEMOD_PREC_SIMON_1994 : ℤ := 5
def SEMOD_PREC_IAU_2000 : ℤ := 6
def SEMOD_PREC_BRETAGNON_2003 : ℤ := 7
def SEMOD_PREC_IAU_2006 : ℤ := 8
def SEMOD_PREC_NEWCOMB : ℤ := 9
def SEMOD_PREC_VONDRAK_2011 : ℤ := 10
def SEMOD_PREC_OWEN_1990 : ℤ := 11
def SEMOD_PREC_DEFAULT : ℤ := SEMOD_PREC_VONDRAK_2011
def SEMOD_PREC_DEFAULT_SHORT : ℤ := SEMOD_PREC_VONDRAK_2011

def SEMOD_BIAS_NONE : ℤ := 1
def SEMOD_BIAS_IAU2000 : ℤ := 2
def SEMOD_BIAS_IAU2006 : ℤ := 3
def SEMOD_BIAS_DEFAULT : ℤ := SEMOD_BIAS_IAU2006

def SEMOD_JPLHORA_1 : ℤ := 1
def SEMOD_JPLHORA_2 : ℤ := 2
def SEMOD_JPLHORA_3 : ℤ := 3
def SEMOD_JPLHORA_DEFAULT : ℤ := SEMOD_JPLHORA_3

/-- Flag bit `SEFLG_SPEED` (modelled from the spec, see above). -/
def SEFLG_SPEED : ℕ := 256

/-- Flag bit `SEFLG_JPLHOR_APPROX` (modelled from the spec, see above). -/
def SEFLG_JPLHOR_APPROX : ℕ := 2097152

/-- `PREC_IAU_1976_CTIES = 2.0` (part_004 line 16). -/
def PREC_IAU_1976_CTIES : ℝ := 2.0

/-- `PREC_IAU_2000_CTIES = 2.0` (part_004 line 17). -/
def PREC_IAU_2000_CTIES : ℝ := 2.0

/-- `PREC_IAU_2006_CTIES = 75.0` (part_004 line 19). -/
def PREC_IAU_2006_CTIES : ℝ := 75.0

/-- `DPSI_DEPS_IAU1980_TJD0_HORIZONS = 2437684.5` (part_004 line 20). -/
def DPSI_DEPS_IAU1980_TJD0_HORIZONS : ℝ := 2437684.5

/-- The global `swed.AstroModels` configuration slots that the verified
functions read, as an explicit record (spec §9 asks precisely for this
"explicit, passable ephemeris context").  Zero means "not configured",
triggering the defaulting done by each reader. -/
structure AstroModels where
  precModelLong : ℤ
  precModelShort : ℤ
  nutModel : ℤ
  biasModel : ℤ
  jplhoraModel : ℤ
deriving Repr

/-! ### quadratic_intp (part_004 lines 1446-1452) -/

/-- `quadraticIntp`: Newton-form quadratic through three equally spaced
points `(-1, ym)`, `(0, y0)`, `(1, yp)`, evaluated at `x`. -/
noncomputable def quadraticIntp (ym y0 yp x : ℝ) : ℝ :=
  let c := y0
  let b := (yp - ym) / 2.0
  let a := (yp + ym) / 2.0 - c
  let y := a * x * x + b * x + c
  y

/-- C8: For all real `ym, y0, yp` and `x`, `quadraticIntp ym y0 yp x`
equals `p x`, where `p` is the unique polynomial of degree at most 2
through the three equally spaced points `(-1, ym)`, `(0, y0)`, `(1, yp)`;
in particular `quadraticIntp` interpolates the three points exactly.
Degree-at-most-2 polynomials are represented by their coefficient
triples `a * x ^ 2 + b * x + c`. -/
theorem C8_quadraticIntp_unique_quadratic (ym y0 yp : ℝ) :
    (quadraticIntp ym y0 yp (-1) = ym ∧ quadraticIntp ym y0 yp 0 = y0 ∧
      quadraticIntp ym y0 yp 1 = yp) ∧
    ∀ a b c : ℝ, a * (-1) ^ 2 + b * (-1) + c = ym → a * 0 ^ 2 + b * 0 + c = y0 →
      a * 1 ^ 2 + b * 1 + c = yp →
      ∀ x : ℝ, quadraticIntp ym y0 yp x = a * x ^ 2 + b * x + c := by
  constructor
  · refine ⟨?_, ?_, ?_⟩ <;> (simp only [quadraticIntp]; ring)
  · intro a b c hm h0 hp x
    simp only [quadraticIntp]
    have hc : c = y0 := by linarith [h0]
    have hb : b = (yp - ym) / 2 := by nlinarith [hm, hp]
    have ha : a = (yp + ym) / 2 - y0 := by nlinarith [hm, hp]
    subst hc hb ha
    ring

/-- Witness for C8 at `ym = 1`, `y0 = 2`, `yp = 4`, `x = 2` with the
quadratic `x ^ 2 / 2 + 3 * x / 2 + 2`. -/
theorem C8_quadraticIntp_witness :
    quadraticIntp 1 2 4 2 = (1 / 2 : ℝ) * 2 ^ 2 + (3 / 2) * 2 + 2 :=
  (C8_quadraticIntp_unique_quadratic 1 2 4).2 (1 / 2) (3 / 2) 2
    (by norm_num) (by norm_num) (by norm_num) 2

/-! ### swi_nutation (part_004 lines 1456-1505)

The mutable cache `swed.Interpol` (internal/domain.go) becomes an
explicit state value; `swiNutation` returns the updated state together
with the output `nutlo` pair.  The full nutation series
`calcNutation` (part_004 lines 1422-1442, dispatching to the IAU 1980 /
IAU 2000A/B / Woolard term tables) is passed as a function parameter
`calcNutation : ℝ → ℝ × ℝ` from epoch to `(dpsi, deps)`; the claims
about `swiNutation` concern only its caching structure, which is
independent of the series values.  `calcNutation` in the source always
returns `OK`, so the `retc == ERR` branches are dead and the embedding
returns no error code. -/

/-- The nutation interpolation window `Interpol` (internal/domain.go). -/
structure Interpol where
  TjdNut0 : ℝ
  TjdNut2 : ℝ
  NutDpsi0 : ℝ
  NutDpsi1 : ℝ
  NutDpsi2 : ℝ
  NutDeps0 : ℝ
  NutDeps1 : ℝ
  NutDeps2 : ℝ

/-- `swiNutation` (part_004 lines 1456-1505); see the section comment. -/
noncomputable def swiNutation (doInterpolateNut : Bool)
    (calcNutation : ℝ → ℝ × ℝ) (interpol : Interpol) (tjd : ℝ) :
    Interpol × (ℝ × ℝ) :=
  if !doInterpolateNut then
    (interpol, calcNutation tjd)
  else
    if tjd < interpol.TjdNut2 ∧ tjd > interpol.TjdNut0 then
      let dx := (tjd - interpol.TjdNut0) - 1.0
      (interpol,
        (quadraticIntp interpol.NutDpsi0 interpol.NutDpsi1 interpol.NutDpsi2 dx,
         quadraticIntp interpol.NutDeps0 interpol.NutDeps1 interpol.NutDeps2 dx))
    else
      let dnut0 := calcNutation (tjd - 1.0)
      let dnut2 := calcNutation (tjd + 1.0)
      let nutlo := calcNutation tjd
      (⟨tjd - 1.0, tjd + 1.0, dnut0.1, nutlo.1, dnut2.1,
          dnut0.2, nutlo.2, dnut2.2⟩, nutlo)

/-- C7: with interpolation enabled, a query strictly inside the open
bracket `(TjdNut0, TjdNut2)` leaves the window unchanged and returns the
quadratic interpolation of the three stored samples, independently of
the nutation-series function (the series is not evaluated); a query
outside the bracket re-seeds the window with samples at exactly
`tjd - 1` and `tjd + 1`, a two-day bracket containing `tjd`, and returns
the series value at `tjd`. -/
theorem C7_swiNutation_interpolation_cache :
    (∀ (calcA calcB : ℝ → ℝ × ℝ) (st : Interpol) (tjd : ℝ),
      st.TjdNut0 < tjd → tjd < st.TjdNut2 →
      swiNutation true calcA st tjd =
        (st, (quadraticIntp st.NutDpsi0 st.NutDpsi1 st.NutDpsi2 (tjd - st.TjdNut0 - 1),
              quadraticIntp st.NutDeps0 st.NutDeps1 st.NutDeps2 (tjd - st.TjdNut0 - 1))) ∧
      swiNutation true calcA st tjd = swiNutation true calcB st tjd) ∧
    (∀ (calcN : ℝ → ℝ × ℝ) (st : Interpol) (tjd : ℝ),
      ¬(st.TjdNut0 < tjd ∧ tjd < st.TjdNut2) →
      swiNutation true calcN st tjd =
        (⟨tjd - 1, tjd + 1, (calcN (tjd - 1)).1, (calcN tjd).1, (calcN (tjd + 1)).1,
            (calcN (tjd - 1)).2, (calcN tjd).2, (calcN (tjd + 1)).2⟩, calcN tjd) ∧
      tjd - 1 < tjd ∧ tjd < tjd + 1) := by
  constructor
  · intro calcA calcB st tjd h0 h2
    have hin : tjd < st.TjdNut2 ∧ tjd > st.TjdNut0 := ⟨h2, h0⟩
    constructor
    · simp only [swiNutation, Bool.not_true, Bool.false_eq_true, if_false, if_pos hin]
      norm_num
    · simp only [swiNutation, Bool.not_true, Bool.false_eq_true, if_false, if_pos hin]
  · intro calcN st tjd hout
    have hin : ¬(tjd < st.TjdNut2 ∧ tjd > st.TjdNut0) := by
      intro h
      exact hout ⟨h.2, h.1⟩
    refine ⟨?_, by linarith, by linarith⟩
    simp only [swiNutation, Bool.not_true, Bool.false_eq_true, if_false, if_neg hin]
    norm_num

/-- Witness for C7: a hit at `tjd = 1` inside the window `(0, 2)` and a
miss at `tjd = 5` outside it, for the zero series. -/
theorem C7_swiNutation_witness :
    ((0 : ℝ) < 1 ∧ (1 : ℝ) < 2 ∧
      swiNutation true (fun _ => (0, 0)) ⟨0, 2, 3, 4, 5, 6, 7, 8⟩ 1 =
        (⟨0, 2, 3, 4, 5, 6, 7, 8⟩, (quadraticIntp 3 4 5 (1 - 0 - 1), quadraticIntp 6 7 8 (1 - 0 - 1)))) ∧
    (¬((0 : ℝ) < 5 ∧ (5 : ℝ) < 2) ∧
      swiNutation true (fun _ => (0, 0)) ⟨0, 2, 3, 4, 5, 6, 7, 8⟩ 5 =
        (⟨5 - 1, 5 + 1, 0, 0, 0, 0, 0, 0⟩, (0, 0))) := by
  constructor
  · exact ⟨by norm_num, by norm_num,
      ((C7_swiNutation_interpolation_cache.1 (fun _ => (0, 0)) (fun _ => (0, 0))
        ⟨0, 2, 3, 4, 5, 6, 7, 8⟩ 1 (by norm_num) (by norm_num)).1)⟩
  · refine ⟨by norm_num, ?_⟩
    exact (C7_swiNutation_interpolation_cache.2 (fun _ => (0, 0))
      ⟨0, 2, 3, 4, 5, 6, 7, 8⟩ 5 (by norm_num)).1

/-! ### swi_cartpol / swi_polcart (part_004 lines 123-166) -/

/-- A 3-vector, modelling the `[]float64` position slices. -/
@[ext]
structure Vec3 where
  x : ℝ
  y : ℝ
  z : ℝ

/-- Go's `math.Atan2 y x` on finite inputs: the angle of the point
`(x, y)` in `(-π, π]`, with `mathAtan2 0 0 = 0`. -/
noncomputable def mathAtan2 (y x : ℝ) : ℝ :=
  if 0 < x then Real.arctan (y / x)
  else if x < 0 then
    if 0 ≤ y then Real.arctan (y / x) + Real.pi
    else Real.arctan (y / x) - Real.pi
  else
    if 0 < y then Real.pi / 2
    else if y < 0 then -(Real.pi / 2)
    else 0

/-- `swiCartpol` (part_004 lines 123-149): cartesian to polar; the zero
vector maps to the zero polar form. -/
noncomputable def swiCartpol (v : Vec3) : Vec3 :=
  if v.x = 0 ∧ v.y = 0 ∧ v.z = 0 then ⟨0, 0, 0⟩
  else
    let rxysq := v.x * v.x + v.y * v.y
    let ll2 := Real.sqrt (rxysq + v.z * v.z)
    let rxy := Real.sqrt rxysq
    let ll0raw := mathAtan2 v.y v.x
    let ll0 := if ll0raw < 0 then ll0raw + TWOPI else ll0raw
    let ll1 :=
      if rxy = 0 then (if 0 ≤ v.z then Real.pi / 2 else -(Real.pi / 2))
      else Real.arctan (v.z / rxy)
    ⟨ll0, ll1, ll2⟩

/-- `swiPolcart` (part_004 lines 155-166): polar to cartesian. -/
noncomputable def swiPolcart (l : Vec3) : Vec3 :=
  let cosl1 := Real.cos l.y
  ⟨l.z * cosl1 * Real.cos l.x, l.z * cosl1 * Real.sin l.x, l.z * Real.sin l.y⟩

theorem sqrt_one_add_div_sq (a b : ℝ) (hb : 0 < b) :
    Real.sqrt (1 + (a / b) ^ 2) = Real.sqrt (b ^ 2 + a ^ 2) / b := by
  have hb0 : b ≠ 0 := ne_of_gt hb
  have h1 : 1 + (a / b) ^ 2 = (b ^ 2 + a ^ 2) / b ^ 2 := by
    field_simp
  have h2 : (0 : ℝ) ≤ b ^ 2 + a ^ 2 := by positivity
  rw [h1, Real.sqrt_div h2, Real.sqrt_sq hb.le]

theorem mathAtan2_cos_sin (y x : ℝ) (h : ¬(x = 0 ∧ y = 0)) :
    Real.cos (mathAtan2 y x) = x / Real.sqrt (x ^ 2 + y ^ 2) ∧
    Real.sin (mathAtan2 y x) = y / Real.sqrt (x ^ 2 + y ^ 2) := by
  rcases lt_trichotomy x 0 with hx | hx | hx
  · have hx0 : x ≠ 0 := ne_of_lt hx
    have hnx : 0 < -x := by linarith
    have hs : 0 < Real.sqrt (x ^ 2 + y ^ 2) := Real.sqrt_pos.mpr (by positivity)
    have hs0 : Real.sqrt (x ^ 2 + y ^ 2) ≠ 0 := ne_of_gt hs
    have hsq : Real.sqrt (1 + (y / x) ^ 2) = Real.sqrt (x ^ 2 + y ^ 2) / (-x) := by
      have h1 : 1 + (y / x) ^ 2 = (x ^ 2 + y ^ 2) / (-x) ^ 2 := by
        field_simp
      rw [h1, Real.sqrt_div (by positivity : (0 : ℝ) ≤ x ^ 2 + y ^ 2),
        Real.sqrt_sq hnx.le]
    have hcos : Real.cos (Real.arctan (y / x)) = -x / Real.sqrt (x ^ 2 + y ^ 2) := by
      rw [Real.cos_arctan, hsq, one_div_div]
    have hsin : Real.sin (Real.arctan (y / x)) = -y / Real.sqrt (x ^ 2 + y ^ 2) := by
      rw [Real.sin_arctan, hsq]
      field_simp
      ring
    have hne : ¬0 < x := by linarith
    rcases le_or_lt 0 y with hy | hy
    · simp only [mathAtan2, if_neg hne, if_pos hx, if_pos hy,
        Real.cos_add_pi, Real.sin_add_pi, hcos, hsin]
      constructor <;> ring
    · simp only [mathAtan2, if_neg hne, if_pos hx, if_neg (not_le.mpr hy),
        Real.cos_sub_pi, Real.sin_sub_pi, hcos, hsin]
      constructor <;> ring
  · subst hx
    have hy : y ≠ 0 := fun hy => h ⟨rfl, hy⟩
    have hne : ¬(0 : ℝ) < 0 := lt_irrefl 0
    rcases lt_trichotomy y 0 with hy0 | hy0 | hy0
    · simp only [mathAtan2, if_neg hne, if_neg hne, if_neg (not_lt.mpr hy0.le),
        if_pos hy0, Real.cos_neg, Real.sin_neg, Real.cos_pi_div_two, Real.sin_pi_div_two]
      have hsy : Real.sqrt (0 ^ 2 + y ^ 2) = -y := by
        rw [show (0 : ℝ) ^ 2 + y ^ 2 = (-y) ^ 2 by ring, Real.sqrt_sq (by linarith)]
      rw [hsy]
      constructor
      · simp
      · rw [div_neg, div_self hy]
    · exact absurd hy0 hy
    · simp only [mathAtan2, if_neg hne, if_neg hne, if_pos hy0,
        Real.cos_pi_div_two, Real.sin_pi_div_two]
      have hsy : Real.sqrt (0 ^ 2 + y ^ 2) = y := by
        rw [show (0 : ℝ) ^ 2 + y ^ 2 = y ^ 2 by ring, Real.sqrt_sq hy0.le]
      rw [hsy]
      constructor
      · simp
      · rw [div_self (ne_of_gt hy0)]
  · have hx0 : x ≠ 0 := ne_of_gt hx
    have hs : 0 < Real.sqrt (x ^ 2 + y ^ 2) := Real.sqrt_pos.mpr (by positivity)
    have hs0 : Real.sqrt (x ^ 2 + y ^ 2) ≠ 0 := ne_of_gt hs
    have hsq := sqrt_one_add_div_sq y x hx
    simp only [mathAtan2, if_pos hx, Real.cos_arctan, Real.sin_arctan, hsq]
    constructor
    · rw [one_div_div]
    · field_simp

/-- C2: for every vector not on the polar z-axis (in particular
non-zero), `swiPolcart (swiCartpol v) = v` exactly in the real-arithmetic
embedding — hence within any floating-point tolerance; and the zero
vector maps to the defined zero polar form `(0, 0, 0)` rather than
failing. -/
theorem C2_cartpol_polcart_roundtrip :
    (∀ v : Vec3, ¬(v.x = 0 ∧ v.y = 0) → swiPolcart (swiCartpol v) = v) ∧
    swiCartpol ⟨0, 0, 0⟩ = ⟨0, 0, 0⟩ := by
  constructor
  · intro v h
    have hnot : ¬(v.x = 0 ∧ v.y = 0 ∧ v.z = 0) := fun hc => h ⟨hc.1, hc.2.1⟩
    have hrsq : 0 < v.x * v.x + v.y * v.y := by
      rcases not_and_or.mp h with hx | hy
      · nlinarith [mul_self_nonneg v.y, mul_self_pos.mpr hx]
      · nlinarith [mul_self_nonneg v.x, mul_self_pos.mpr hy]
    have hrxy : 0 < Real.sqrt (v.x * v.x + v.y * v.y) := Real.sqrt_pos.mpr hrsq
    have hr : 0 < Real.sqrt (v.x * v.x + v.y * v.y + v.z * v.z) :=
      Real.sqrt_pos.mpr (by nlinarith [mul_self_nonneg v.z])
    set rxy := Real.sqrt (v.x * v.x + v.y * v.y) with hrxy_def
    set r := Real.sqrt (v.x * v.x + v.y * v.y + v.z * v.z) with hr_def
    have hrxy_sq : rxy ^ 2 = v.x * v.x + v.y * v.y := Real.sq_sqrt hrsq.le
    have hr_sq : r ^ 2 = v.x * v.x + v.y * v.y + v.z * v.z :=
      Real.sq_sqrt (by nlinarith [mul_self_nonneg v.z])
    -- the latitude branch: rxy is nonzero
    have hlat_cos : Real.cos (Real.arctan (v.z / rxy)) = rxy / r := by
      rw [Real.cos_arctan, sqrt_one_add_div_sq v.z rxy hrxy]
      have : Real.sqrt (rxy ^ 2 + v.z ^ 2) = r := by
        rw [hrxy_sq, hr_def]
        congr 1
        ring
      rw [this]
      field_simp
    have hlat_sin : Real.sin (Real.arctan (v.z / rxy)) = v.z / r := by
      rw [Real.sin_arctan, sqrt_one_add_div_sq v.z rxy hrxy]
      have : Real.sqrt (rxy ^ 2 + v.z ^ 2) = r := by
        rw [hrxy_sq, hr_def]
        congr 1
        ring
      rw [this]
      field_simp
    -- the longitude: cos and sin are unchanged by the + 2π normalisation
    have hlon := mathAtan2_cos_sin v.y v.x h
    have hsxy : Real.sqrt (v.x ^ 2 + v.y ^ 2) = rxy := by
      rw [hrxy_def]
      congr 1
      ring
    have hlon_cos : Real.cos (mathAtan2 v.y v.x) = v.x / rxy := by
      rw [hlon.1, hsxy]
    have hlon_sin : Real.sin (mathAtan2 v.y v.x) = v.y / rxy := by
      rw [hlon.2, hsxy]
    set lon := mathAtan2 v.y v.x with hlon_def
    have hcos_norm : Real.cos (if lon < 0 then lon + TWOPI else lon) = v.x / rxy := by
      split
      · rw [TWOPI, show lon + 2.0 * Real.pi = lon + 2 * Real.pi by norm_num,
          Real.cos_add_two_pi, hlon_cos]
      · exact hlon_cos
    have hsin_norm : Real.sin (if lon < 0 then lon + TWOPI else lon) = v.y / rxy := by
      split
      · rw [TWOPI, show lon + 2.0 * Real.pi = lon + 2 * Real.pi by norm_num,
          Real.sin_add_two_pi, hlon_sin]
      · exact hlon_sin
    show swiPolcart (swiCartpol v) = v
    rw [swiCartpol, if_neg hnot]
    simp only [swiPolcart, if_neg (ne_of_gt hrxy)]
    ext
    · show r * Real.cos (Real.arctan (v.z / rxy)) *
        Real.cos (if lon < 0 then lon + TWOPI else lon) = v.x
      rw [hlat_cos, hcos_norm]
      field_simp
    · show r * Real.cos (Real.arctan (v.z / rxy)) *
        Real.sin (if lon < 0 then lon + TWOPI else lon) = v.y
      rw [hlat_cos, hsin_norm]
      field_simp
    · show r * Real.sin (Real.arctan (v.z / rxy)) = v.z
      rw [hlat_sin]
      field_simp
  · simp [swiCartpol]

/-- Witness for C2 at `v = (3, 4, 12)`. -/
theorem C2_cartpol_polcart_witness :
    ¬((3 : ℝ) = 0 ∧ (4 : ℝ) = 0) ∧
    swiPolcart (swiCartpol ⟨3, 4, 12⟩) = (⟨3, 4, 12⟩ : Vec3) :=
  ⟨by norm_num, C2_cartpol_polcart_roundtrip.1 ⟨3, 4, 12⟩ (by norm_num)⟩

/-! ### Vondrák 2011 long-term obliquity: swi_ldp_peps
(part_004 lines 168-263) -/

noncomputable section

/-- `AS2R = DEGTORAD / 3600.0` (part_004 line 171). -/
def AS2R : ℝ := DEGTORAD / 3600.0

/-- `D2PI = 2 * math.Pi` (part_004 line 172). -/
def D2PI : ℝ := 2 * Real.pi

/-- `pepol` polynomial table for `swiLdpPeps` (part_004 lines 184-189). -/
def pepol : Fin 4 → Fin 2 → ℝ :=
  ![![8134.017132, 84028.206305],
    ![5043.0520035, 0.3624445],
    ![-0.00710733, -0.00004039],
    ![0.000000271, -0.000000110]]

/-- `peper` periodic table for `swiLdpPeps` (part_004 lines 192-198). -/
def peper : Fin 5 → Fin 10 → ℝ :=
  ![![409.90, 396.15, 537.22, 402.90, 417.15, 288.92, 4043.00, 306.00, 277.00, 203.00],
    ![-6908.287473, -3198.706291, 1453.674527, -857.748557, 1173.231614, -156.981465, 371.836550, -216.619040, 193.691479, 11.891524],
    ![753.872780, -247.805823, 379.471484, -53.880558, -90.109153, -353.600190, -63.115353, -28.248187, 17.703387, 38.911307],
    ![-2845.175469, 449.844989, -1255.915323, 886.736783, 418.887514, 997.912441, -240.979710, 76.541307, -36.788069, -170.964086],
    ![-1704.720302, -862.308358, 447.832178, -889.571909, 190.402846, -56.564991, -296.222622, -75.859952, 67.473503, 3.014055]]

/-- `swiLdpPeps` (part_004 lines 239-263): long-term precession and
obliquity of Vondrák et al. 2011, returning `(dpre, deps)` in radians.
The two accumulation loops become sums over the term index. -/
def swiLdpPeps (tjd : ℝ) : ℝ × ℝ :=
  let t := (tjd - J2000) / 36525.0
  let p := (∑ i : Fin 10,
      (Real.cos (D2PI * t / peper 0 i) * peper 1 i +
       Real.sin (D2PI * t / peper 0 i) * peper 3 i)) +
    ∑ i : Fin 4, pepol i 0 * t ^ (i : ℕ)
  let q := (∑ i : Fin 10,
      (Real.cos (D2PI * t / peper 0 i) * peper 2 i +
       Real.sin (D2PI * t / peper 0 i) * peper 4 i)) +
    ∑ i : Fin 4, pepol i 1 * t ^ (i : ℕ)
  (p * AS2R, q * AS2R)

/-! ### Owen 1990 obliquity (part_004 lines 345-401, 506-530) -/

/-- `owenEps0Coef` (part_004 lines 355-361). -/
def owenEps0Coef : Fin 5 → Fin 10 → ℝ :=
  ![![23.699391439256386, 5.2330816033981775e-1, -5.6259493384864815e-2, -8.2033318431602032e-3, 6.6774163554156385e-4, 2.4931584012812606e-5, -3.1313623302407878e-6, 2.0343814827951515e-7, 2.9182026615852936e-8, -4.1118760893281951e-9],
    ![24.124759551704588, -1.2094875596566286e-1, -8.3914869653015218e-2, 3.5357075322387405e-3, 6.4557467824807032e-4, -2.5092064378707704e-5, -1.7631607274450848e-6, 1.3363622791424094e-7, 1.5577817511054047e-8, -2.4613907093017122e-9],
    ![23.439103144206208, -4.9386077073143590e-1, -2.3965445283267805e-4, 8.6637485629656489e-3, -5.2828151901367600e-5, -4.3951004595359217e-5, -1.1058785949914705e-6, 6.2431490022621172e-8, 3.4725376218710764e-8, 1.3658853127005757e-9],
    ![22.724671295125046, -1.6041813558650337e-1, 7.0646783888132504e-2, 1.4967806745062837e-3, -6.6857270989190734e-4, 5.7578378071604775e-6, 3.3738508454638728e-6, -2.2917813537654764e-7, -2.1019907929218137e-8, 4.3139832091694682e-9],
    ![22.914636050333696, 3.2123508304962416e-1, 3.6633220173792710e-2, -5.9228324767696043e-3, -1.882379107379328e-4, 3.2274552870236244e-5, 4.9052463646336507e-7, -5.9064298731578425e-8, -2.0485712675098837e-8, -6.2163304813908160e-10]]

/-- The five segment epochs `t0s` of `getOwenT0Icof` (part_004 line 390). -/
def owenT0s : Fin 5 → ℝ :=
  ![-3392455.5, -470455.5, 2451544.5, 5373544.5, 8295544.5]

/-- `getOwenT0Icof` (part_004 lines 389-401): the loop over the four
segment midpoints, unrolled into four sequential conditional updates of
the state `(t0, j)`. -/
def getOwenT0Icof (tjd : ℝ) : ℝ × ℕ :=
  let s0 : ℝ × ℕ := (owenT0s 0, 0)
  let s1 := if (owenT0s 0 + owenT0s 1) / 2 ≤ tjd then (owenT0s 1, s0.2 + 1) else s0
  let s2 := if (owenT0s 1 + owenT0s 2) / 2 ≤ tjd then (owenT0s 2, s1.2 + 1) else s1
  let s3 := if (owenT0s 2 + owenT0s 3) / 2 ≤ tjd then (owenT0s 3, s2.2 + 1) else s2
  let s4 := if (owenT0s 3 + owenT0s 4) / 2 ≤ tjd then (owenT0s 4, s3.2 + 1) else s3
  s4

/-- The Chebyshev basis values `k[0..9]` used by the Owen model
(part_004 lines 516-525), as a function of `tau[1]`. -/
def owenK (t1 : ℝ) : Fin 10 → ℝ :=
  ![1, t1, 2 * t1 ^ 2 - 1, 4 * t1 ^ 3 - 3 * t1,
    8 * t1 ^ 4 - 8 * t1 ^ 2 + 1, 16 * t1 ^ 5 - 20 * t1 ^ 3 + 5 * t1,
    32 * t1 ^ 6 - 48 * t1 ^ 4 + 18 * t1 ^ 2 - 1,
    64 * t1 ^ 7 - 112 * t1 ^ 5 + 56 * t1 ^ 3 - 7 * t1,
    128 * t1 ^ 8 - 256 * t1 ^ 6 + 160 * t1 ^ 4 - 32 * t1 ^ 2 + 1,
    256 * t1 ^ 9 - 576 * t1 ^ 7 + 432 * t1 ^ 5 - 120 * t1 ^ 3 + 9 * t1]

/-- `epsilnOwen1986` (part_004 lines 506-530): obliquity in degrees from
the Owen coefficient tables.  The `tau` powers of the source are written
out as powers of `tau[1]`. -/
def epsilnOwen1986 (tjd : ℝ) : ℝ :=
  let t0icof := getOwenT0Icof tjd
  let tau1 := (tjd - t0icof.1) / 36525.0 / 40.0
  ∑ i : Fin 10, owenK tau1 i * owenEps0Coef (Fin.ofNat' 5 t0icof.2) i

/-! ### swi_epsiln (part_004 lines 707-758) -/

/-- `swiEpsiln` (part_004 lines 707-758): obliquity of the ecliptic at
Julian date `J` in radians, dispatching on the configured long-term and
short-term precession models (with defaulting of unset entries), the
short-term polynomial branches being guarded by their validity windows. -/
def swiEpsiln (models : AstroModels) (J : ℝ) (_iflag : ℕ) : ℝ :=
  let precModel := if models.precModelLong = 0 then SEMOD_PREC_DEFAULT
    else models.precModelLong
  let precModelShort := if models.precModelShort = 0 then SEMOD_PREC_DEFAULT_SHORT
    else models.precModelShort
  let T := (J - 2451545.0) / 36525.0
  if precModelShort = SEMOD_PREC_IAU_1976 ∧ |T| ≤ PREC_IAU_1976_CTIES then
    (((1.813e-3 * T - 5.9e-4) * T - 46.8150) * T + 84381.448) * DEGTORAD / 3600
  else if precModel = SEMOD_PREC_IAU_1976 then
    (((1.813e-3 * T - 5.9e-4) * T - 46.8150) * T + 84381.448) * DEGTORAD / 3600
  else if precModelShort = SEMOD_PREC_IAU_2000 ∧ |T| ≤ PREC_IAU_2000_CTIES then
    (((1.813e-3 * T - 5.9e-4) * T - 46.84024) * T + 84381.406) * DEGTORAD / 3600
  else if precModel = SEMOD_PREC_IAU_2000 then
    (((1.813e-3 * T - 5.9e-4) * T - 46.84024) * T + 84381.406) * DEGTORAD / 3600
  else if precModelShort = SEMOD_PREC_IAU_2006 ∧ |T| ≤ PREC_IAU_2006_CTIES then
    (((((-4.34e-8 * T - 5.76e-7) * T + 2.0034e-3) * T - 1.831e-4) * T - 46.836769) * T
      + 84381.406) * DEGTORAD / 3600.0
  else if precModel = SEMOD_PREC_NEWCOMB then
    let Tn := (J - 2396758.0) / 36525.0
    (0.0017 * Tn * Tn * Tn - 0.0085 * Tn * Tn - 46.837 * Tn + 84451.68) * DEGTORAD / 3600.0
  else if precModel = SEMOD_PREC_IAU_2006 then
    (((((-4.34e-8 * T - 5.76e-7) * T + 2.0034e-3) * T - 1.831e-4) * T - 46.836769) * T
      + 84381.406) * DEGTORAD / 3600.0
  else if precModel = SEMOD_PREC_BRETAGNON_2003 then
    ((((((-3e-11 * T - 2.48e-8) * T - 5.23e-7) * T + 1.99911e-3) * T - 1.667e-4) * T
      - 46.836051) * T + 84381.40880) * DEGTORAD / 3600.0
  else if precModel = SEMOD_PREC_SIMON_1994 then
    (((((2.5e-8 * T - 5.1e-7) * T + 1.9989e-3) * T - 1.52e-4) * T - 46.80927) * T
      + 84381.412) * DEGTORAD / 3600.0
  else if precModel = SEMOD_PREC_WILLIAMS_1994 then
    ((((-1.0e-6 * T + 2.0e-3) * T - 1.74e-4) * T - 46.833960) * T + 84381.409) * DEGTORAD / 3600.0
  else if precModel = SEMOD_PREC_LASKAR_1986 ∨ precModel = SEMOD_PREC_WILL_EPS_LASK then
    let T := T / 10.0
    (((((((((2.45e-10 * T + 5.79e-9) * T + 2.787e-7) * T +
      7.12e-7) * T - 3.905e-5) * T - 2.4967e-3) * T -
      5.138e-3) * T + 1.99925) * T - 0.0155) * T - 468.093 * T +
      84381.448) * (DEGTORAD / 3600.0)
  else if precModel = SEMOD_PREC_OWEN_1990 then
    epsilnOwen1986 J * DEGTORAD
  else
    (swiLdpPeps J).2

end

/-! ### Elementary rotations

The three in-place rotation shapes that `precess1` and `precess2` are
built from.  `rotxA s c` is the shape `x1 = c*R1 + s*R2; x2 = -s*R1 +
c*R2` of part_004 lines 858-861 (and, with `s` negated, lines 918-920),
`rotzA` the shape of lines 881-885, and `rotyA` the middle rotation of
the `precess1` matrix. -/

noncomputable section

def rotxA (s c : ℝ) (v : Vec3) : Vec3 :=
  ⟨v.x, c * v.y + s * v.z, -s * v.y + c * v.z⟩

def rotyA (s c : ℝ) (v : Vec3) : Vec3 :=
  ⟨c * v.x + s * v.z, v.y, -s * v.x + c * v.z⟩

def rotzA (s c : ℝ) (v : Vec3) : Vec3 :=
  ⟨c * v.x + s * v.y, -s * v.x + c * v.y, v.z⟩

theorem rotxA_cancel (s c : ℝ) (h : s ^ 2 + c ^ 2 = 1) (v : Vec3) :
    rotxA (-s) c (rotxA s c v) = v := by
  simp only [rotxA]
  ext
  · rfl
  · show c * (c * v.y + s * v.z) + -s * (-s * v.y + c * v.z) = v.y
    linear_combination v.y * h
  · show - -s * (c * v.y + s * v.z) + c * (-s * v.y + c * v.z) = v.z
    linear_combination v.z * h

theorem rotyA_cancel (s c : ℝ) (h : s ^ 2 + c ^ 2 = 1) (v : Vec3) :
    rotyA (-s) c (rotyA s c v) = v := by
  simp only [rotyA]
  ext
  · show c * (c * v.x + s * v.z) + -s * (-s * v.x + c * v.z) = v.x
    linear_combination v.x * h
  · rfl
  · show - -s * (c * v.x + s * v.z) + c * (-s * v.x + c * v.z) = v.z
    linear_combination v.z * h

theorem rotzA_cancel (s c : ℝ) (h : s ^ 2 + c ^ 2 = 1) (v : Vec3) :
    rotzA (-s) c (rotzA s c v) = v := by
  simp only [rotzA]
  ext
  · show c * (c * v.x + s * v.y) + -s * (-s * v.x + c * v.y) = v.x
    linear_combination v.x * h
  · show - -s * (c * v.x + s * v.y) + c * (-s * v.x + c * v.y) = v.y
    linear_combination v.y * h
  · rfl

theorem rotxA_sin_cancel (t : ℝ) (v : Vec3) :
    rotxA (-Real.sin t) (Real.cos t) (rotxA (Real.sin t) (Real.cos t) v) = v :=
  rotxA_cancel _ _ (Real.sin_sq_add_cos_sq t) v

theorem rotxA_sin_cancel_symm (t : ℝ) (v : Vec3) :
    rotxA (Real.sin t) (Real.cos t) (rotxA (-Real.sin t) (Real.cos t) v) = v := by
  have := rotxA_cancel (-Real.sin t) (Real.cos t)
    (by nlinarith [Real.sin_sq_add_cos_sq t]) v
  simpa using this

theorem rotzA_sin_cancel (t : ℝ) (v : Vec3) :
    rotzA (-Real.sin t) (Real.cos t) (rotzA (Real.sin t) (Real.cos t) v) = v :=
  rotzA_cancel _ _ (Real.sin_sq_add_cos_sq t) v

theorem rotzA_sin_cancel_symm (t : ℝ) (v : Vec3) :
    rotzA (Real.sin t) (Real.cos t) (rotzA (-Real.sin t) (Real.cos t) v) = v := by
  have := rotzA_cancel (-Real.sin t) (Real.cos t)
    (by nlinarith [Real.sin_sq_add_cos_sq t]) v
  simpa using this

theorem rotyA_sin_cancel (t : ℝ) (v : Vec3) :
    rotyA (-Real.sin t) (Real.cos t) (rotyA (Real.sin t) (Real.cos t) v) = v :=
  rotyA_cancel _ _ (Real.sin_sq_add_cos_sq t) v

/-! ### precess_1 (part_004 lines 429-502) -/

/-- The `switch precMethod` block of `precess1` (part_004 lines 439-478),
computing the Euler angles `(Z, z, TH)` in radians; `none` is the
`default:` branch, which returns with `R` untouched. -/
def precess1Angles (precMethod : ℤ) (J : ℝ) : Option (ℝ × ℝ × ℝ) :=
  let T := (J - J2000) / 36525.0
  if precMethod = SEMOD_PREC_IAU_1976 then
    some (((0.017998 * T + 0.30188) * T + 2306.2181) * T * DEGTORAD / 3600,
      ((0.018203 * T + 1.09468) * T + 2306.2181) * T * DEGTORAD / 3600,
      ((-0.041833 * T - 0.42665) * T + 2004.3109) * T * DEGTORAD / 3600)
  else if precMethod = SEMOD_PREC_IAU_2000 then
    some ((((((-0.0000002 * T - 0.0000327) * T + 0.0179663) * T + 0.3019015) * T
        + 2306.0809506) * T + 2.5976176) * DEGTORAD / 3600,
      (((((-0.0000003 * T - 0.000047) * T + 0.0182237) * T + 1.0947790) * T
        + 2306.0803226) * T - 2.5976176) * DEGTORAD / 3600,
      ((((-0.0000001 * T - 0.0000601) * T - 0.0418251) * T - 0.4269353) * T
        + 2004.1917476) * T * DEGTORAD / 3600)
  else if precMethod = SEMOD_PREC_IAU_2006 then
    some ((((((-0.0000003173 * T - 0.000005971) * T + 0.01801828) * T + 0.2988499) * T
        + 2306.083227) * T + 2.650545) * DEGTORAD / 3600,
      (((((-0.0000002904 * T - 0.000028596) * T + 0.01826837) * T + 1.0927348) * T
        + 2306.077181) * T - 2.650545) * DEGTORAD / 3600,
      ((((-0.00000011274 * T - 0.000007089) * T - 0.04182264) * T - 0.4294934) * T
        + 2004.191903) * T * DEGTORAD / 3600)
  else if precMethod = SEMOD_PREC_BRETAGNON_2003 then
    some (((((((-0.00000000013 * T - 0.0000003040) * T - 0.000005708) * T + 0.01801752) * T
        + 0.3023262) * T + 2306.080472) * T + 2.72767) * DEGTORAD / 3600,
      ((((((-0.00000000005 * T - 0.0000002486) * T - 0.000028276) * T + 0.01826676) * T
        + 1.0956768) * T + 2306.076070) * T - 2.72767) * DEGTORAD / 3600,
      ((((((0.000000000009 * T + 0.00000000036) * T - 0.0000001127) * T - 0.000007291) * T
        - 0.04182364) * T - 0.4266980) * T + 2004.190936) * T * DEGTORAD / 3600)
  else if precMethod = SEMOD_PREC_NEWCOMB then
    let mills : ℝ := 365242.198782
    let t1 := (J2000 - B1850) / mills
    let t2 := (J - B1850) / mills
    let Tn := t2 - t1
    let T2 := Tn * Tn
    let T3 := T2 * Tn
    let Z1 := 23035.5548 + 139.720 * t1 + 0.069 * t1 * t1
    some ((Z1 * Tn + (30.242 - 0.269 * t1) * T2 + 17.996 * T3) * (DEGTORAD / 3600.0),
      (Z1 * Tn + (109.478 - 0.387 * t1) * T2 + 18.324 * T3) * (DEGTORAD / 3600.0),
      ((20051.125 - 85.294 * t1 - 0.365 * t1 * t1) * Tn + (-42.647 - 0.365 * t1) * T2
        - 41.802 * T3) * (DEGTORAD / 3600.0))
  else
    none

/-- `precess1` (part_004 lines 429-502): the angle-based precession
rotation.  `direction < 0` rotates from J2000 to `J` with the matrix of
lines 490-492; otherwise from `J` to J2000 with its transpose
(lines 494-496). -/
def precess1 (R : Vec3) (J : ℝ) (direction : ℤ) (precMethod : ℤ) : Vec3 :=
  if J = J2000 then R
  else
    match precess1Angles precMethod J with
    | none => R
    | some (Z, z, TH) =>
      let sinth := Real.sin TH
      let costh := Real.cos TH
      let sinZ := Real.sin Z
      let cosZ := Real.cos Z
      let sinz := Real.sin z
      let cosz := Real.cos z
      let A := cosZ * costh
      let B := sinZ * costh
      if direction < 0 then
        ⟨(A * cosz - sinZ * sinz) * R.x - (B * cosz + cosZ * sinz) * R.y
            - sinth * cosz * R.z,
          (A * sinz + sinZ * cosz) * R.x - (B * sinz - cosZ * cosz) * R.y
            - sinth * sinz * R.z,
          cosZ * sinth * R.x - sinZ * sinth * R.y + costh * R.z⟩
      else
        ⟨(A * cosz - sinZ * sinz) * R.x + (A * sinz + sinZ * cosz) * R.y
            + cosZ * sinth * R.z,
          -(B * cosz + cosZ * sinz) * R.x - (B * sinz - cosZ * cosz) * R.y
            - sinZ * sinth * R.z,
          -sinth * cosz * R.x - sinth * sinz * R.y + costh * R.z⟩

/-- The forward (`J` to J2000) branch of `precess1` is the composition
of three elementary rotations. -/
theorem precess1_forward_decomp (Z z TH : ℝ) (R : Vec3) :
    (⟨(Real.cos Z * Real.cos TH * Real.cos z - Real.sin Z * Real.sin z) * R.x
        + (Real.cos Z * Real.cos TH * Real.sin z + Real.sin Z * Real.cos z) * R.y
        + Real.cos Z * Real.sin TH * R.z,
      -(Real.sin Z * Real.cos TH * Real.cos z + Real.cos Z * Real.sin z) * R.x
        - (Real.sin Z * Real.cos TH * Real.sin z - Real.cos Z * Real.cos z) * R.y
        - Real.sin Z * Real.sin TH * R.z,
      -Real.sin TH * Real.cos z * R.x - Real.sin TH * Real.sin z * R.y
        + Real.cos TH * R.z⟩ : Vec3) =
    rotzA (Real.sin Z) (Real.cos Z)
      (rotyA (Real.sin TH) (Real.cos TH) (rotzA (Real.sin z) (Real.cos z) R)) := by
  simp only [rotzA, rotyA]
  ext <;> ring

/-- The backward (J2000 to `J`) branch of `precess1` is the inverse
composition. -/
theorem precess1_backward_decomp (Z z TH : ℝ) (R : Vec3) :
    (⟨(Real.cos Z * Real.cos TH * Real.cos z - Real.sin Z * Real.sin z) * R.x
        - (Real.sin Z * Real.cos TH * Real.cos z + Real.cos Z * Real.sin z) * R.y
        - Real.sin TH * Real.cos z * R.z,
      (Real.cos Z * Real.cos TH * Real.sin z + Real.sin Z * Real.cos z) * R.x
        - (Real.sin Z * Real.cos TH * Real.sin z - Real.cos Z * Real.cos z) * R.y
        - Real.sin TH * Real.sin z * R.z,
      Real.cos Z * Real.sin TH * R.x - Real.sin Z * Real.sin TH * R.y
        + Real.cos TH * R.z⟩ : Vec3) =
    rotzA (-Real.sin z) (Real.cos z)
      (rotyA (-Real.sin TH) (Real.cos TH) (rotzA (-Real.sin Z) (Real.cos Z) R)) := by
  simp only [rotzA, rotyA]
  ext <;> ring

/-! ### precess_2 (part_004 lines 766-925) -/

/-- `pAcofWilliams` (part_004 lines 766-769). -/
def pAcofWilliams : List ℝ :=
  [-8.66e-10, -4.759e-8, 2.424e-7, 1.3095e-5, 1.7451e-4, -1.8055e-3,
   -0.235316, 0.076, 110.5407, 50287.70000]

/-- `nodecofWilliams` (part_004 lines 770-774). -/
def nodecofWilliams : List ℝ :=
  [6.6402e-16, -2.69151e-15, -1.547021e-12, 7.521313e-12, 1.9e-10,
   -3.54e-9, -1.8103e-7, 1.26e-7, 7.436169e-5,
   -0.04207794833, 3.052115282424]

/-- `inclcofWilliams` (part_004 lines 775-779). -/
def inclcofWilliams : List ℝ :=
  [1.2147e-16, 7.3759e-17, -8.26287e-14, 2.503410e-13, 2.4650839e-11,
   -5.4000441e-11, 1.32115526e-9, -6.012e-7, -1.62442e-5,
   0.00227850649, 0.0]

/-- `pAcofSimon` (part_004 lines 782-785). -/
def pAcofSimon : List ℝ :=
  [-8.66e-10, -4.759e-8, 2.424e-7, 1.3095e-5, 1.7451e-4, -1.8055e-3,
   -0.235316, 0.07732, 111.2022, 50288.200]

/-- `nodecofSimon` (part_004 lines 786-790). -/
def nodecofSimon : List ℝ :=
  [6.6402e-16, -2.69151e-15, -1.547021e-12, 7.521313e-12, 1.9e-10,
   -3.54e-9, -1.8103e-7, 2.579e-8, 7.4379679e-5,
   -0.0420782900, 3.0521126906]

/-- `inclcofSimon` (part_004 lines 791-795). -/
def inclcofSimon : List ℝ :=
  [1.2147e-16, 7.3759e-17, -8.26287e-14, 2.503410e-13, 2.4650839e-11,
   -5.4000441e-11, 1.32115526e-9, -5.99908e-7, -1.624383e-5,
   0.002278492868, 0.0]

/-- `pAcofLaskar` (part_004 lines 798-801). -/
def pAcofLaskar : List ℝ :=
  [-8.66e-10, -4.759e-8, 2.424e-7, 1.3095e-5, 1.7451e-4, -1.8055e-3,
   -0.235316, 0.07732, 111.1971, 50290.966]

/-- `nodecofLaskar` (part_004 lines 805-809). -/
def nodecofLaskar : List ℝ :=
  [6.6402e-16, -2.69151e-15, -1.547021e-12, 7.521313e-12, 6.3190131e-10,
   -3.48388152e-9, -1.813065896e-7, 2.75036225e-8, 7.4394531426e-5,
   -0.042078604317, 3.052112654975]

/-- `inclcofLaskar` (part_004 lines 810-814). -/
def inclcofLaskar : List ℝ :=
  [1.2147e-16, 7.3759e-17, -8.26287e-14, 2.503410e-13, 2.4650839e-11,
   -5.4000441e-11, 1.32115526e-9, -5.998737027e-7, -1.6242797091e-5,
   0.002278495537, 0.0]

/-- The Horner-style loop `v = cof[0]; for i { v = v*T + cof[i+1] }` of
`precess2` (part_004 lines 864-867, 870-873, 887-890). -/
noncomputable def hornerList (l : List ℝ) (t : ℝ) : ℝ :=
  match l with
  | [] => 0
  | a :: rest => rest.foldl (fun acc b => acc * t + b) a

/-- `precess2` (part_004 lines 818-925): precession by elementary
rotations using the Laskar / Simon / Williams expansions.  The five
sequential in-place rotations of the source become a composition of
`rotxA` / `rotzA` applications. -/
noncomputable def precess2 (models : AstroModels) (R : Vec3) (J : ℝ)
    (iflag : ℕ) (direction : ℤ) (precMethod : ℤ) : Vec3 :=
  if J = J2000 then R
  else
    let pAcof := if precMethod = SEMOD_PREC_LASKAR_1986 then pAcofLaskar
      else if precMethod = SEMOD_PREC_SIMON_1994 then pAcofSimon
      else if precMethod = SEMOD_PREC_WILLIAMS_1994 then pAcofWilliams
      else pAcofLaskar
    let nodecof := if precMethod = SEMOD_PREC_LASKAR_1986 then nodecofLaskar
      else if precMethod = SEMOD_PREC_SIMON_1994 then nodecofSimon
      else if precMethod = SEMOD_PREC_WILLIAMS_1994 then nodecofWilliams
      else nodecofLaskar
    let inclcof := if precMethod = SEMOD_PREC_LASKAR_1986 then inclcofLaskar
      else if precMethod = SEMOD_PREC_SIMON_1994 then inclcofSimon
      else if precMethod = SEMOD_PREC_WILLIAMS_1994 then inclcofWilliams
      else inclcofLaskar
    let T := (J - J2000) / 36525.0
    let eps := if direction = 1 then swiEpsiln models J iflag
      else swiEpsiln models J2000 iflag
    let x1 := rotxA (Real.sin eps) (Real.cos eps) R
    let T10 := T / 10.0
    let pA := hornerList pAcof T10 * (DEGTORAD / 3600 * T10)
    let W := hornerList nodecof T10
    let z1 := if direction = 1 then W + pA else W
    let x2 := rotzA (Real.sin z1) (Real.cos z1) x1
    let incl0 := hornerList inclcof T10
    let incl := if direction = 1 then -incl0 else incl0
    let x3 := rotxA (Real.sin incl) (Real.cos incl) x2
    let z2 := if direction = 1 then -W else -W - pA
    let x4 := rotzA (Real.sin z2) (Real.cos z2) x3
    let eps2 := if direction = 1 then swiEpsiln models J2000 iflag
      else swiEpsiln models J iflag
    rotxA (-Real.sin eps2) (Real.cos eps2) x4

/-- C4: at epoch exactly J2000 (`J = 2451545.0`) both `precess1` and
`precess2` return with the vector unchanged, for every direction and
every precession model. -/
theorem C4_precess_identity_at_J2000 :
    (∀ (R : Vec3) (direction precMethod : ℤ),
      precess1 R 2451545.0 direction precMethod = R) ∧
    (∀ (models : AstroModels) (R : Vec3) (iflag : ℕ) (direction precMethod : ℤ),
      precess2 models R 2451545.0 iflag direction precMethod = R) := by
  constructor
  · intro R direction precMethod
    rw [precess1, if_pos (show (2451545.0 : ℝ) = J2000 from rfl)]
  · intro models R iflag direction precMethod
    rw [precess2, if_pos (show (2451545.0 : ℝ) = J2000 from rfl)]

/-- The inner cancellation of the ten elementary rotations produced by
`precess2` with direction `1` followed by any other direction. -/
theorem precess2_rotation_core (epsJ eps0 pA W incl : ℝ) (R : Vec3) :
    rotxA (-Real.sin epsJ) (Real.cos epsJ)
      (rotzA (Real.sin (-W - pA)) (Real.cos (-W - pA))
        (rotxA (Real.sin incl) (Real.cos incl)
          (rotzA (Real.sin W) (Real.cos W)
            (rotxA (Real.sin eps0) (Real.cos eps0)
              (rotxA (-Real.sin eps0) (Real.cos eps0)
                (rotzA (Real.sin (-W)) (Real.cos (-W))
                  (rotxA (Real.sin (-incl)) (Real.cos (-incl))
                    (rotzA (Real.sin (W + pA)) (Real.cos (W + pA))
                      (rotxA (Real.sin epsJ) (Real.cos epsJ) R))))))))) = R := by
  rw [rotxA_sin_cancel_symm]
  rw [Real.sin_neg W, Real.cos_neg W, rotzA_sin_cancel_symm]
  rw [Real.sin_neg incl, Real.cos_neg incl, rotxA_sin_cancel_symm]
  rw [show (-W - pA : ℝ) = -(W + pA) by ring, Real.sin_neg, Real.cos_neg,
    rotzA_sin_cancel]
  exact rotxA_sin_cancel epsJ R

/-- C3: for every epoch `J`, every precession model code and every
3-vector, rotating from `J` to J2000 (direction `+1`) and then from
J2000 back to `J` (direction `-1`) returns the original vector exactly
in the real-arithmetic embedding — hence within 1e-12 radians — for both
`precess1` and `precess2` (with the same configured obliquity models in
the latter). -/
theorem C3_precess_roundtrip :
    (∀ (R : Vec3) (J : ℝ) (precMethod : ℤ),
      precess1 (precess1 R J 1 precMethod) J (-1) precMethod = R) ∧
    (∀ (models : AstroModels) (R : Vec3) (J : ℝ) (iflag : ℕ) (precMethod : ℤ),
      precess2 models (precess2 models R J iflag 1 precMethod) J iflag (-1) precMethod
        = R) := by
  constructor
  · intro R J m
    by_cases hJ : J = J2000
    · rw [precess1, if_pos hJ, precess1, if_pos hJ]
    · rcases hA : precess1Angles m J with _ | ⟨Z, z, TH⟩
      · rw [precess1, if_neg hJ, hA, precess1, if_neg hJ, hA]
      · have hfwd : precess1 R J 1 m =
            rotzA (Real.sin Z) (Real.cos Z)
              (rotyA (Real.sin TH) (Real.cos TH)
                (rotzA (Real.sin z) (Real.cos z) R)) := by
          rw [precess1, if_neg hJ, hA]
          exact precess1_forward_decomp Z z TH R
        have hbwd : ∀ S : Vec3, precess1 S J (-1) m =
            rotzA (-Real.sin z) (Real.cos z)
              (rotyA (-Real.sin TH) (Real.cos TH)
                (rotzA (-Real.sin Z) (Real.cos Z) S)) := by
          intro S
          rw [precess1, if_neg hJ, hA]
          exact precess1_backward_decomp Z z TH S
        rw [hfwd, hbwd]
        rw [rotzA_sin_cancel, rotyA_sin_cancel, rotzA_sin_cancel]
  · intro models R J iflag m
    by_cases hJ : J = J2000
    · rw [precess2, if_pos hJ, precess2, if_pos hJ]
    · rw [precess2, precess2]
      simp only [if_neg hJ]
      norm_num only
      exact precess2_rotation_core (swiEpsiln models J iflag)
        (swiEpsiln models J2000 iflag) _ _ _ R

/-! ### C5: short-term versus long-term obliquity model selection -/

/-- The IAU 1976 short-term obliquity polynomial of `swiEpsiln`
(part_004 line 724), as a function of `T` in Julian centuries. -/
def epsIau1976Poly (T : ℝ) : ℝ :=
  (((1.813e-3 * T - 5.9e-4) * T - 46.8150) * T + 84381.448) * DEGTORAD / 3600

/-- The IAU 2000 short-term obliquity polynomial of `swiEpsiln`
(part_004 line 728). -/
def epsIau2000Poly (T : ℝ) : ℝ :=
  (((1.813e-3 * T - 5.9e-4) * T - 46.84024) * T + 84381.406) * DEGTORAD / 3600

/-- The IAU 2006 short-term obliquity polynomial of `swiEpsiln`
(part_004 line 732). -/
def epsIau2006Poly (T : ℝ) : ℝ :=
  (((((-4.34e-8 * T - 5.76e-7) * T + 2.0034e-3) * T - 1.831e-4) * T - 46.836769) * T
    + 84381.406) * DEGTORAD / 3600.0

/-- Counterexample to C5: with short-term model IAU 2000 and long-term
model IAU 1976, at epoch J2000 (inside the short-term window `|T| ≤ 2`),
`swiEpsiln` returns the IAU 1976 value, not the configured short-term
IAU 2000 polynomial: the `precModel == SEMOD_PREC_IAU_1976` test
(part_004 line 725) is reached before the IAU 2000 short-term branch
(line 727), so the short-term polynomial does not win. -/
theorem C5_short_term_counterexample :
    swiEpsiln ⟨SEMOD_PREC_IAU_1976, SEMOD_PREC_IAU_2000, 0, 0, 0⟩ 2451545.0 0 =
      epsIau1976Poly 0 ∧
    |(2451545.0 - 2451545.0) / 36525.0| ≤ PREC_IAU_2000_CTIES ∧
    epsIau1976Poly 0 ≠ epsIau2000Poly 0 := by
  refine ⟨?_, ?_, ?_⟩
  · simp only [swiEpsiln]
    rw [if_neg (by decide : ¬SEMOD_PREC_IAU_2000 = (0 : ℤ))]
    rw [if_neg (by decide : ¬SEMOD_PREC_IAU_1976 = (0 : ℤ))]
    rw [if_neg (fun hc => absurd hc.1 (by decide))]
    rw [if_pos rfl]
    rw [epsIau1976Poly]
    norm_num
  · rw [PREC_IAU_2000_CTIES]
    norm_num
  · rw [epsIau1976Poly, epsIau2000Poly, DEGTORAD]
    intro h
    have hpi := Real.pi_pos
    rw [div_eq_div_iff (by norm_num) (by norm_num)] at h
    nlinarith [h]

/-- C5 amended: within the short-term window, the configured short-term
polynomial is used — except that the long-term branches for IAU 1976 and
IAU 2000 are tested earlier in the chain, so a short model of IAU 2000
additionally requires the long model not to be IAU 1976, and a short
model of IAU 2006 requires the long model to be neither IAU 1976 nor
IAU 2000.  `mLong ≠ 0` reflects a configured (non-defaulted) long
model. -/
theorem C5_short_term_priority_amended (mLong : ℤ) (J : ℝ) (iflag : ℕ)
    (hLong : mLong ≠ 0) :
    (|(J - 2451545.0) / 36525.0| ≤ PREC_IAU_1976_CTIES →
      swiEpsiln ⟨mLong, SEMOD_PREC_IAU_1976, 0, 0, 0⟩ J iflag =
        epsIau1976Poly ((J - 2451545.0) / 36525.0)) ∧
    (|(J - 2451545.0) / 36525.0| ≤ PREC_IAU_2000_CTIES →
      mLong ≠ SEMOD_PREC_IAU_1976 →
      swiEpsiln ⟨mLong, SEMOD_PREC_IAU_2000, 0, 0, 0⟩ J iflag =
        epsIau2000Poly ((J - 2451545.0) / 36525.0)) ∧
    (|(J - 2451545.0) / 36525.0| ≤ PREC_IAU_2006_CTIES →
      mLong ≠ SEMOD_PREC_IAU_1976 → mLong ≠ SEMOD_PREC_IAU_2000 →
      swiEpsiln ⟨mLong, SEMOD_PREC_IAU_2006, 0, 0, 0⟩ J iflag =
        epsIau2006Poly ((J - 2451545.0) / 36525.0)) := by
  refine ⟨?_, ?_, ?_⟩
  · intro h2
    simp only [swiEpsiln]
    rw [if_neg (by decide : ¬SEMOD_PREC_IAU_1976 = (0 : ℤ))]
    rw [if_pos ⟨rfl, h2⟩, epsIau1976Poly]
  · intro h2 h3
    simp only [swiEpsiln]
    rw [if_neg (by decide : ¬SEMOD_PREC_IAU_2000 = (0 : ℤ))]
    rw [if_neg hLong]
    rw [if_neg (fun hc => absurd hc.1 (by decide))]
    rw [if_neg h3]
    rw [if_pos ⟨rfl, h2⟩, epsIau2000Poly]
  · intro h2 h3 h4
    simp only [swiEpsiln]
    rw [if_neg (by decide : ¬SEMOD_PREC_IAU_2006 = (0 : ℤ))]
    rw [if_neg hLong]
    rw [if_neg (fun hc => absurd hc.1 (by decide))]
    rw [if_neg h3]
    rw [if_neg (fun hc => absurd hc.1 (by decide))]
    rw [if_neg h4]
    rw [if_pos ⟨rfl, h2⟩, epsIau2006Poly]

/-- Witness for the amended C5 at long model Laskar 1986, short model
IAU 1976, epoch J2000. -/
theorem C5_short_term_priority_witness :
    SEMOD_PREC_LASKAR_1986 ≠ (0 : ℤ) ∧
    |((2451545.0 : ℝ) - 2451545.0) / 36525.0| ≤ PREC_IAU_1976_CTIES ∧
    swiEpsiln ⟨SEMOD_PREC_LASKAR_1986, SEMOD_PREC_IAU_1976, 0, 0, 0⟩ 2451545.0 0 =
      epsIau1976Poly ((2451545.0 - 2451545.0) / 36525.0) :=
  ⟨by decide, by rw [PREC_IAU_1976_CTIES]; norm_num,
    (C5_short_term_priority_amended SEMOD_PREC_LASKAR_1986 2451545.0 0 (by decide)).1
      (by rw [PREC_IAU_1976_CTIES]; norm_num)⟩

/-! ### swi_approx_jplhor and swi_bias (part_004 lines 1508-1634) -/

/-- A 6-vector: position in components 0-2, speed in components 3-5. -/
@[ext]
structure Vec6 where
  x0 : ℝ
  x1 : ℝ
  x2 : ℝ
  x3 : ℝ
  x4 : ℝ
  x5 : ℝ

/-- `OFFSET_JPLHORIZONS = -52.3` (part_004 line 1509). -/
def OFFSET_JPLHORIZONS : ℝ := -52.3

/-- `DCOR_RA_JPL_TJD0 = 2437846.5` (part_004 line 1510). -/
def DCOR_RA_JPL_TJD0 : ℝ := 2437846.5

/-- `NDCOR_RA_JPL = 51` (part_004 line 1511). -/
def NDCOR_RA_JPL : ℕ := 51

/-- `dcorRaJpl` (part_004 lines 1514-1521). -/
def dcorRaJpl : List ℝ :=
  [-51.257, -51.103, -51.065, -51.503, -51.224, -50.796, -51.161, -51.181,
   -50.932, -51.064, -51.182, -51.386, -51.416, -51.428, -51.586, -51.766, -52.038, -52.370,
   -52.553, -52.397, -52.340, -52.676, -52.348, -51.964, -52.444, -52.364, -51.988, -52.212,
   -52.370, -52.523, -52.541, -52.496, -52.590, -52.629, -52.788, -53.014, -53.053, -52.902,
   -52.850, -53.087, -52.635, -52.185, -52.588, -52.292, -51.796, -51.961, -52.055, -52.134,
   -52.165, -52.141, -52.255]

/-- `swiApproxJplhor` (part_004 lines 1526-1559).  In the Go source the
calls `swiCartpol(x)` and `swiPolcart(x)` return fresh slices whose
results are discarded, so only component 0 of `x` is changed; the
embedding reflects that. -/
noncomputable def swiApproxJplhor (models : AstroModels) (x : Vec6) (tjd : ℝ)
    (iflag : ℕ) (backward : Bool) : Vec6 :=
  let t := (tjd - DCOR_RA_JPL_TJD0) / 365.25
  let jplhoraModel := if models.jplhoraModel = 0 then SEMOD_JPLHORA_DEFAULT
    else models.jplhoraModel
  if iflag &&& SEFLG_JPLHOR_APPROX = 0 then x
  else if jplhoraModel = SEMOD_JPLHORA_2 then x
  else
    let dofs :=
      if t < 0 then dcorRaJpl.getD 0 0
      else if (NDCOR_RA_JPL - 1 : ℝ) ≤ t then dcorRaJpl.getD (NDCOR_RA_JPL - 1) 0
      else
        (t - (⌊t⌋ : ℝ)) * (dcorRaJpl.getD ⌊t⌋.toNat 0 - dcorRaJpl.getD (⌊t⌋.toNat + 1) 0)
          + dcorRaJpl.getD ⌊t⌋.toNat 0
    let dofs := dofs / (1000.0 * 3600.0)
    if backward then { x with x0 := x.x0 - dofs * DEGTORAD }
    else { x with x0 := x.x0 + dofs * DEGTORAD }

/-- The IAU 2006 frame-bias matrix of `SwiBias` (part_004 lines 1587-1591). -/
def rbIau2006 : Fin 3 → Fin 3 → ℝ :=
  ![![0.99999999999999412, 0.00000007078368695, -0.00000008056214212],
    ![-0.00000007078368961, 0.99999999999999700, -0.00000003306427981],
    ![0.00000008056213978, 0.00000003306428553, 0.99999999999999634]]

/-- The alternative frame-bias matrix of `SwiBias` (part_004 lines 1593-1597). -/
def rbIau2000 : Fin 3 → Fin 3 → ℝ :=
  ![![0.9999999999999942, 0.0000000707827948, -0.0000000805621738],
    ![-0.0000000707827974, 0.9999999999999969, -0.0000000330604088],
    ![0.0000000805621715, 0.0000000330604145, 0.9999999999999962]]

/-- `SwiBias` (part_004 lines 1564-1634): GCRS to J2000 frame bias.  The
speed components are transformed only under `SEFLG_SPEED`; otherwise the
input speed components are returned unchanged, mirroring the final
copy-back loops of the source. -/
noncomputable def SwiBias (models : AstroModels) (x : Vec6) (tjd : ℝ)
    (iflag : ℕ) (backward : Bool) : Vec6 :=
  let biasModel := if models.biasModel = 0 then SEMOD_BIAS_DEFAULT else models.biasModel
  let jplhoraModel := if models.jplhoraModel = 0 then SEMOD_JPLHORA_DEFAULT
    else models.jplhoraModel
  if biasModel = SEMOD_BIAS_NONE then x
  else if iflag &&& SEFLG_JPLHOR_APPROX ≠ 0 ∧ jplhoraModel = SEMOD_JPLHORA_2 then x
  else if iflag &&& SEFLG_JPLHOR_APPROX ≠ 0 ∧ jplhoraModel = SEMOD_JPLHORA_3 ∧
      tjd < DPSI_DEPS_IAU1980_TJD0_HORIZONS then x
  else
    let rb := if biasModel = SEMOD_BIAS_IAU2006 then rbIau2006 else rbIau2000
    if backward then
      let xm := swiApproxJplhor models x tjd iflag true
      let pos := fun i : Fin 3 =>
        xm.x0 * rb i 0 + xm.x1 * rb i 1 + xm.x2 * rb i 2
      let spd := fun i : Fin 3 =>
        xm.x3 * rb i 0 + xm.x4 * rb i 1 + xm.x5 * rb i 2
      if iflag &&& SEFLG_SPEED ≠ 0 then
        ⟨pos 0, pos 1, pos 2, spd 0, spd 1, spd 2⟩
      else
        ⟨pos 0, pos 1, pos 2, xm.x3, xm.x4, xm.x5⟩
    else
      let pos := fun i : Fin 3 =>
        x.x0 * rb 0 i + x.x1 * rb 1 i + x.x2 * rb 2 i
      let spd := fun i : Fin 3 =>
        x.x3 * rb 0 i + x.x4 * rb 1 i + x.x5 * rb 2 i
      let xx : Vec6 := if iflag &&& SEFLG_SPEED ≠ 0 then
          ⟨pos 0, pos 1, pos 2, spd 0, spd 1, spd 2⟩
        else ⟨pos 0, pos 1, pos 2, 0, 0, 0⟩
      let xm := swiApproxJplhor models xx tjd iflag false
      if iflag &&& SEFLG_SPEED ≠ 0 then
        ⟨xm.x0, xm.x1, xm.x2, xm.x3, xm.x4, xm.x5⟩
      else
        ⟨xm.x0, xm.x1, xm.x2, x.x3, x.x4, x.x5⟩

/-- Counterexample to C6: with the JPL-Horizons approximation flag set
(bias model IAU 2006, jplhora model 3), `SwiBias` is not epoch
independent: at `tjd = 0` (before the Horizons threshold 2437684.5) the
vector `(1,0,0,0,0,0)` is returned unchanged, while at `tjd = 2437846.5`
the bias matrix is applied, giving z-component `-8.056214212e-8 ≠ 0`. -/
theorem C6_bias_epoch_dependence_counterexample :
    (SwiBias ⟨0, 0, 0, SEMOD_BIAS_IAU2006, SEMOD_JPLHORA_3⟩ ⟨1, 0, 0, 0, 0, 0⟩ 0
      SEFLG_JPLHOR_APPROX false).x2 = 0 ∧
    (SwiBias ⟨0, 0, 0, SEMOD_BIAS_IAU2006, SEMOD_JPLHORA_3⟩ ⟨1, 0, 0, 0, 0, 0⟩ 2437846.5
      SEFLG_JPLHOR_APPROX false).x2 = -0.00000008056214212 ∧
    SwiBias ⟨0, 0, 0, SEMOD_BIAS_IAU2006, SEMOD_JPLHORA_3⟩ ⟨1, 0, 0, 0, 0, 0⟩ 0
      SEFLG_JPLHOR_APPROX false ≠
    SwiBias ⟨0, 0, 0, SEMOD_BIAS_IAU2006, SEMOD_JPLHORA_3⟩ ⟨1, 0, 0, 0, 0, 0⟩ 2437846.5
      SEFLG_JPLHOR_APPROX false := by
  have h1 : (SwiBias ⟨0, 0, 0, SEMOD_BIAS_IAU2006, SEMOD_JPLHORA_3⟩ ⟨1, 0, 0, 0, 0, 0⟩ 0
      SEFLG_JPLHOR_APPROX false) = ⟨1, 0, 0, 0, 0, 0⟩ := by
    simp only [SwiBias]
    rw [if_neg (by decide : ¬(if (SEMOD_BIAS_IAU2006 : ℤ) = 0 then SEMOD_BIAS_DEFAULT
      else SEMOD_BIAS_IAU2006) = SEMOD_BIAS_NONE)]
    rw [if_neg (by decide : ¬(SEFLG_JPLHOR_APPROX &&& SEFLG_JPLHOR_APPROX ≠ 0 ∧
      (if (SEMOD_JPLHORA_3 : ℤ) = 0 then SEMOD_JPLHORA_DEFAULT else SEMOD_JPLHORA_3) =
        SEMOD_JPLHORA_2))]
    rw [if_pos]
    refine ⟨by decide, by decide, ?_⟩
    rw [DPSI_DEPS_IAU1980_TJD0_HORIZONS]
    norm_num
  have h2 : (SwiBias ⟨0, 0, 0, SEMOD_BIAS_IAU2006, SEMOD_JPLHORA_3⟩ ⟨1, 0, 0, 0, 0, 0⟩
      2437846.5 SEFLG_JPLHOR_APPROX false).x2 = -0.00000008056214212 := by
    simp only [SwiBias]
    rw [if_neg (by decide : ¬(if (SEMOD_BIAS_IAU2006 : ℤ) = 0 then SEMOD_BIAS_DEFAULT
      else SEMOD_BIAS_IAU2006) = SEMOD_BIAS_NONE)]
    rw [if_neg (by decide : ¬(SEFLG_JPLHOR_APPROX &&& SEFLG_JPLHOR_APPROX ≠ 0 ∧
      (if (SEMOD_JPLHORA_3 : ℤ) = 0 then SEMOD_JPLHORA_DEFAULT else SEMOD_JPLHORA_3) =
        SEMOD_JPLHORA_2))]
    rw [if_neg (show ¬(SEFLG_JPLHOR_APPROX &&& SEFLG_JPLHOR_APPROX ≠ 0 ∧
      (if (SEMOD_JPLHORA_3 : ℤ) = 0 then SEMOD_JPLHORA_DEFAULT else SEMOD_JPLHORA_3) =
        SEMOD_JPLHORA_3 ∧ (2437846.5 : ℝ) < DPSI_DEPS_IAU1980_TJD0_HORIZONS) by
      rintro ⟨-, -, hc⟩
      rw [DPSI_DEPS_IAU1980_TJD0_HORIZONS] at hc
      norm_num at hc)]
    simp only [Bool.false_eq_true, if_false, swiApproxJplhor]
    rw [if_neg (by decide : ¬SEFLG_JPLHOR_APPROX &&& SEFLG_JPLHOR_APPROX = 0)]
    rw [if_neg (by decide : ¬(if (SEMOD_JPLHORA_3 : ℤ) = 0 then SEMOD_JPLHORA_DEFAULT
      else SEMOD_JPLHORA_3) = SEMOD_JPLHORA_2)]
    rw [if_neg (by decide : ¬SEFLG_JPLHOR_APPROX &&& SEFLG_SPEED ≠ 0)]
    rw [if_pos (by decide : (if (SEMOD_BIAS_IAU2006 : ℤ) = 0 then SEMOD_BIAS_DEFAULT
      else SEMOD_BIAS_IAU2006) = SEMOD_BIAS_IAU2006)]
    norm_num [rbIau2006]
  refine ⟨by rw [h1], h2, ?_⟩
  intro heq
  rw [h1] at heq
  have : ((⟨1, 0, 0, 0, 0, 0⟩ : Vec6)).x2 =
      (SwiBias ⟨0, 0, 0, SEMOD_BIAS_IAU2006, SEMOD_JPLHORA_3⟩ ⟨1, 0, 0, 0, 0, 0⟩
        2437846.5 SEFLG_JPLHOR_APPROX false).x2 := by
    rw [← heq]
  rw [h2] at this
  norm_num at this

/-- C6 amended: `SwiBias` applies the fixed bias rotation identically at
every epoch, and skips it entirely for `SEMOD_BIAS_NONE`, provided the
`SEFLG_JPLHOR_APPROX` flag is not set (with the flag set, the epoch
enters through the Horizons threshold test and the right-ascension
correction, as the counterexample shows). -/
theorem C6_bias_fixed_rotation_amended :
    (∀ (models : AstroModels) (x : Vec6) (iflag : ℕ) (tjd1 tjd2 : ℝ) (backward : Bool),
      iflag &&& SEFLG_JPLHOR_APPROX = 0 →
      SwiBias models x tjd1 iflag backward = SwiBias models x tjd2 iflag backward) ∧
    (∀ (models : AstroModels) (x : Vec6) (tjd : ℝ) (iflag : ℕ) (backward : Bool),
      models.biasModel = SEMOD_BIAS_NONE →
      SwiBias models x tjd iflag backward = x) := by
  constructor
  · intro models x iflag tjd1 tjd2 backward h
    simp [SwiBias, swiApproxJplhor, h]
  · intro models x tjd iflag backward hb
    simp [SwiBias, hb, SEMOD_BIAS_NONE, SEMOD_BIAS_DEFAULT, SEMOD_BIAS_IAU2006]

/-- Witness for the amended C6: flag clear, epochs 0 and 5, and the
`SEMOD_BIAS_NONE` skip. -/
theorem C6_bias_fixed_rotation_witness :
    ((0 : ℕ) &&& SEFLG_JPLHOR_APPROX = 0 ∧
      SwiBias ⟨0, 0, 0, 0, 0⟩ ⟨1, 2, 3, 4, 5, 6⟩ 0 0 false =
        SwiBias ⟨0, 0, 0, 0, 0⟩ ⟨1, 2, 3, 4, 5, 6⟩ 5 0 false) ∧
    ((⟨0, 0, 0, SEMOD_BIAS_NONE, 0⟩ : AstroModels).biasModel = SEMOD_BIAS_NONE ∧
      SwiBias ⟨0, 0, 0, SEMOD_BIAS_NONE, 0⟩ ⟨1, 2, 3, 4, 5, 6⟩ 7 0 true =
        ⟨1, 2, 3, 4, 5, 6⟩) :=
  ⟨⟨by decide, C6_bias_fixed_rotation_amended.1 ⟨0, 0, 0, 0, 0⟩ ⟨1, 2, 3, 4, 5, 6⟩ 0 0 5
      false (by decide)⟩,
   ⟨rfl, C6_bias_fixed_rotation_amended.2 ⟨0, 0, 0, SEMOD_BIAS_NONE, 0⟩ ⟨1, 2, 3, 4, 5, 6⟩
      7 0 true rfl⟩⟩

/-! ### swi_edcheb (part_004 lines 73-96)

The derivative of a Chebyshev series by Clenshaw's recurrence.  The Go
loop `for j := ncf - 1; j >= 1; j--` over the seven local accumulators
becomes a structural recursion on the descending loop counter, carrying
the accumulators as an explicit state record.  Coefficient slices become
total functions `ℕ → ℝ`; the claims are stated for list-backed
coefficient functions. -/

/-- The seven local accumulators of `swiEdcheb`. -/
structure EdState where
  bjpl : ℝ
  xjpl : ℝ
  bf : ℝ
  bj : ℝ
  xj : ℝ
  bjp2 : ℝ
  xjp2 : ℝ

/-- One iteration of the `swiEdcheb` loop body at index `j`
(part_004 lines 86-93). -/
def edchebStep (x2 : ℝ) (coef : ℕ → ℝ) (j : ℕ) (s : EdState) : EdState :=
  let dj : ℝ := (j + j : ℕ)
  let xj := coef j * dj + s.xjp2
  let bj := x2 * s.bjpl - s.bjp2 + xj
  ⟨bj, xj, s.bjp2, bj, xj, s.bjpl, s.xjpl⟩

/-- The `swiEdcheb` loop, running indices `j, j-1, ..., 1` (descending,
stopping before 0, like `for j := ncf-1; j >= 1; j--`). -/
def edchebLoop (x2 : ℝ) (coef : ℕ → ℝ) : ℕ → EdState → EdState
  | 0, s => s
  | j + 1, s => edchebLoop x2 coef j (edchebStep x2 coef (j + 1) s)

/-- `swiEdcheb` (part_004 lines 73-96): derivative of a Chebyshev series
at `x` from coefficients `coef[0..ncf-1]`. -/
def swiEdcheb (x : ℝ) (coef : ℕ → ℝ) (ncf : ℕ) : ℝ :=
  let x2 := x * 2.0
  let s := edchebLoop x2 coef (ncf - 1) ⟨0, 0, 0, 0, 0, 0, 0⟩
  (s.bj - s.bf) * 0.5

theorem edchebLoop_congr (x2 : ℝ) (c c2 : ℕ → ℝ) :
    ∀ (j : ℕ) (s : EdState), (∀ k, 1 ≤ k → k ≤ j → c k = c2 k) →
      edchebLoop x2 c j s = edchebLoop x2 c2 j s := by
  intro j
  induction j with
  | zero => intro s _; rfl
  | succ j ih =>
    intro s hc
    show edchebLoop x2 c j (edchebStep x2 c (j + 1) s) =
      edchebLoop x2 c2 j (edchebStep x2 c2 (j + 1) s)
    rw [show edchebStep x2 c (j + 1) s = edchebStep x2 c2 (j + 1) s by
      simp only [edchebStep, hc (j + 1) (Nat.le_add_left 1 j) le_rfl]]
    exact ih _ (fun k h1 h2 => hc k h1 (h2.trans (Nat.le_succ j)))

/-! #### Clenshaw analysis of `swiEdcheb`

`edXd j` and `edBd j` are the values of the accumulators `xj` and `bj`
after the loop iteration at index `j`; they satisfy the downward
recurrences read off from the loop body.  The invariant
`edcheb_clenshaw` telescopes the Clenshaw recurrence against the
Chebyshev polynomials, and `swiEdcheb_correct` concludes that the code
computes exactly the derivative of the Chebyshev series. -/

def edXd (c : ℕ → ℝ) (m : ℕ) (j : ℕ) : ℝ :=
  if h : 1 ≤ j ∧ j ≤ m then 2 * j * c j + edXd c m (j + 2) else 0
termination_by m + 1 - j
decreasing_by omega

/-- The downward Clenshaw recurrence. -/
def edBd (x : ℝ) (c : ℕ → ℝ) (m : ℕ) (j : ℕ) : ℝ :=
  if h : 1 ≤ j ∧ j ≤ m then
    2 * x * edBd x c m (j + 1) - edBd x c m (j + 2) + edXd c m j
  else 0
termination_by m + 1 - j
decreasing_by all_goals omega

theorem edXd_of_mem (c : ℕ → ℝ) (m j : ℕ) (h1 : 1 ≤ j) (h2 : j ≤ m) :
    edXd c m j = 2 * j * c j + edXd c m (j + 2) := by
  rw [edXd, dif_pos ⟨h1, h2⟩]

theorem edXd_of_not_mem (c : ℕ → ℝ) (m j : ℕ) (h : ¬(1 ≤ j ∧ j ≤ m)) :
    edXd c m j = 0 := by
  rw [edXd, dif_neg h]

theorem edBd_of_mem (x : ℝ) (c : ℕ → ℝ) (m j : ℕ) (h1 : 1 ≤ j) (h2 : j ≤ m) :
    edBd x c m j = 2 * x * edBd x c m (j + 1) - edBd x c m (j + 2) + edXd c m j := by
  rw [edBd, dif_pos ⟨h1, h2⟩]

theorem edBd_of_not_mem (x : ℝ) (c : ℕ → ℝ) (m j : ℕ) (h : ¬(1 ≤ j ∧ j ≤ m)) :
    edBd x c m j = 0 := by
  rw [edBd, dif_neg h]

/-- The state after completing the loop iteration at index `t`. -/
def edStateAt (x : ℝ) (c : ℕ → ℝ) (m t : ℕ) : EdState :=
  ⟨edBd x c m t, edXd c m t, edBd x c m (t + 2), edBd x c m t, edXd c m t,
    edBd x c m (t + 1), edXd c m (t + 1)⟩

theorem edchebStep_stateAt (x : ℝ) (c : ℕ → ℝ) (m t : ℕ) (h1 : 1 ≤ t) (h2 : t ≤ m) :
    edchebStep (x * 2.0) c t (edStateAt x c m (t + 1)) = edStateAt x c m t := by
  simp only [edchebStep, edStateAt]
  rw [show t + 1 + 1 = t + 2 from rfl]
  have hx : c t * ((t + t : ℕ) : ℝ) + edXd c m (t + 2) = edXd c m t := by
    rw [edXd_of_mem c m t h1 h2]
    push_cast
    ring
  rw [hx, edBd_of_mem x c m t h1 h2, show x * 2.0 = 2 * x by ring]

theorem edchebLoop_stateAt (x : ℝ) (c : ℕ → ℝ) (m : ℕ) :
    ∀ j, 1 ≤ j → j ≤ m →
      edchebLoop (x * 2.0) c j (edStateAt x c m (j + 1)) = edStateAt x c m 1 := by
  intro j
  induction j with
  | zero => omega
  | succ j ih =>
    intro h1 h2
    show edchebLoop (x * 2.0) c j (edchebStep (x * 2.0) c (j + 1) (edStateAt x c m (j + 2)))
      = edStateAt x c m 1
    rw [edchebStep_stateAt x c m (j + 1) (by omega) h2]
    rcases Nat.eq_zero_or_pos j with hj | hj
    · subst hj; rfl
    · exact ih hj (by omega)

theorem edStateAt_top (x : ℝ) (c : ℕ → ℝ) (m : ℕ) :
    edStateAt x c m (m + 1) = ⟨0, 0, 0, 0, 0, 0, 0⟩ := by
  simp only [edStateAt]
  rw [edBd_of_not_mem _ _ _ _ (by omega), edBd_of_not_mem _ _ _ _ (by omega),
    edBd_of_not_mem _ _ _ _ (by omega), edXd_of_not_mem _ _ _ (by omega),
    edXd_of_not_mem _ _ _ (by omega)]

/-- The loop output in terms of the downward recurrences. -/
theorem swiEdcheb_eq_edBd (x : ℝ) (c : ℕ → ℝ) (m : ℕ) (hm : 1 ≤ m) :
    swiEdcheb x c (m + 1) = (edBd x c m 1 - edBd x c m 3) * 0.5 := by
  simp only [swiEdcheb, Nat.add_sub_cancel]
  rw [← edStateAt_top x c m, edchebLoop_stateAt x c m m hm le_rfl]
  rfl



noncomputable def evalT (x : ℝ) (n : ℤ) : ℝ := (Polynomial.Chebyshev.T ℝ n).eval x

noncomputable def evalU (x : ℝ) (n : ℤ) : ℝ := (Polynomial.Chebyshev.U ℝ n).eval x

theorem evalT_rec (x : ℝ) (n : ℤ) :
    evalT x n = 2 * x * evalT x (n - 1) - evalT x (n - 2) := by
  simp only [evalT]
  rw [Polynomial.Chebyshev.T_eq ℝ n]
  simp

theorem evalT_zero (x : ℝ) : evalT x 0 = 1 := by
  simp [evalT, Polynomial.Chebyshev.T_zero]

theorem evalT_neg_one (x : ℝ) : evalT x (-1) = x := by
  simp [evalT, Polynomial.Chebyshev.T_neg_one]

theorem evalU_add_two (x : ℝ) (n : ℤ) :
    evalU x (n + 2) = evalU x n + 2 * evalT x (n + 2) := by
  have hpoly : Polynomial.Chebyshev.U ℝ (n + 2) =
      Polynomial.Chebyshev.U ℝ n + 2 * Polynomial.Chebyshev.T ℝ (n + 2) := by
    have h1 := Polynomial.Chebyshev.U_add_two ℝ n
    have h2 := Polynomial.Chebyshev.T_eq_U_sub_X_mul_U ℝ (n + 2)
    rw [show (n + 2 - 1 : ℤ) = n + 1 by ring] at h2
    linear_combination -h1 - 2 * h2
  simp only [evalU, evalT, hpoly]
  simp

theorem edcheb_clenshaw (x : ℝ) (c : ℕ → ℝ) (m : ℕ) :
    ∀ k i, 1 ≤ i → m + 1 - i ≤ k →
      (∑ t in Finset.Ico i (m + 1), edXd c m t * evalT x ((t : ℤ) - 1)) =
        edBd x c m i * evalT x ((i : ℤ) - 1) -
          edBd x c m (i + 1) * evalT x ((i : ℤ) - 2) := by
  intro k
  induction k with
  | zero =>
    intro i h1 hk
    rw [Finset.Ico_eq_empty (by omega), Finset.sum_empty,
      edBd_of_not_mem _ _ _ _ (by omega), edBd_of_not_mem _ _ _ _ (by omega)]
    ring
  | succ k ih =>
    intro i h1 hk
    by_cases him : i ≤ m
    · rw [Finset.sum_eq_sum_Ico_succ_bot (by omega : i < m + 1)]
      rw [ih (i + 1) (by omega) (by omega)]
      rw [show ((i + 1 : ℕ) : ℤ) - 1 = (i : ℤ) by push_cast; ring]
      rw [show ((i + 1 : ℕ) : ℤ) - 2 = (i : ℤ) - 1 by push_cast; ring]
      rw [show i + 1 + 1 = i + 2 from rfl]
      rw [edBd_of_mem x c m i h1 him]
      have hT := evalT_rec x (i : ℤ)
      linear_combination edBd x c m (i + 1) * hT
    · rw [Finset.Ico_eq_empty (by omega), Finset.sum_empty,
        edBd_of_not_mem _ _ _ _ (by omega), edBd_of_not_mem _ _ _ _ (by omega)]
      ring

theorem swiEdcheb_eq_sum (x : ℝ) (c : ℕ → ℝ) (m : ℕ) (hm : 1 ≤ m) :
    swiEdcheb x c (m + 1) =
      (∑ t in Finset.Ico 1 (m + 1), edXd c m t * evalT x ((t : ℤ) - 1)) -
        edXd c m 1 / 2 := by
  rw [swiEdcheb_eq_edBd x c m hm]
  have hcl := edcheb_clenshaw x c m (m + 1) 1 le_rfl (by omega)
  rw [show ((1 : ℕ) : ℤ) - 1 = 0 by norm_num, show ((1 : ℕ) : ℤ) - 2 = -1 by norm_num,
    evalT_zero, evalT_neg_one] at hcl
  have hB1 := edBd_of_mem x c m 1 le_rfl hm
  rw [hcl]
  rw [show (1 : ℕ) + 1 = 2 from rfl] at hB1
  linear_combination (-0.5 : ℝ) * hB1


theorem edXd_closed (c : ℕ → ℝ) (m : ℕ) :
    ∀ k t, 1 ≤ t → m + 1 - t ≤ k →
      edXd c m t = ∑ j in (Finset.Ico t (m + 1)).filter (fun j => j % 2 = t % 2),
        2 * (j : ℝ) * c j := by
  intro k
  induction k with
  | zero =>
    intro t h1 hk
    rw [edXd_of_not_mem _ _ _ (by omega), Finset.Ico_eq_empty (by omega),
      Finset.filter_empty, Finset.sum_empty]
  | succ k ih =>
    intro t h1 hk
    by_cases him : t ≤ m
    · rw [edXd_of_mem c m t h1 him, ih (t + 2) (by omega) (by omega)]
      have hset : (Finset.Ico t (m + 1)).filter (fun j => j % 2 = t % 2) =
          insert t ((Finset.Ico (t + 2) (m + 1)).filter (fun j => j % 2 = (t + 2) % 2)) := by
        ext j
        simp only [Finset.mem_filter, Finset.mem_Ico, Finset.mem_insert]
        omega
      rw [hset, Finset.sum_insert (by
        simp only [Finset.mem_filter, Finset.mem_Ico]
        omega)]
    · rw [edXd_of_not_mem _ _ _ (by omega), Finset.Ico_eq_empty (by omega),
        Finset.filter_empty, Finset.sum_empty]

theorem sum_XT_swap (x : ℝ) (c : ℕ → ℝ) (m : ℕ) :
    (∑ t in Finset.Ico 1 (m + 1), edXd c m t * evalT x ((t : ℤ) - 1)) =
      ∑ j in Finset.Ico 1 (m + 1), 2 * (j : ℝ) * c j *
        (∑ t in (Finset.Ico 1 (j + 1)).filter (fun t => t % 2 = j % 2),
          evalT x ((t : ℤ) - 1)) := by
  have h1 : ∀ t ∈ Finset.Ico 1 (m + 1), edXd c m t * evalT x ((t : ℤ) - 1) =
      ∑ j in Finset.Ico 1 (m + 1),
        (if t ≤ j ∧ j % 2 = t % 2 then 2 * (j : ℝ) * c j * evalT x ((t : ℤ) - 1) else 0) := by
    intro t ht
    simp only [Finset.mem_Ico] at ht
    rw [edXd_closed c m (m + 1) t ht.1 (by omega), Finset.sum_mul]
    rw [show (Finset.Ico t (m + 1)).filter (fun j => j % 2 = t % 2) =
        (Finset.Ico 1 (m + 1)).filter (fun j => t ≤ j ∧ j % 2 = t % 2) by
      ext j
      simp only [Finset.mem_filter, Finset.mem_Ico]
      omega]
    rw [Finset.sum_filter]
  rw [Finset.sum_congr rfl h1, Finset.sum_comm]
  apply Finset.sum_congr rfl
  intro j hj
  simp only [Finset.mem_Ico] at hj
  rw [← Finset.sum_filter]
  rw [show (Finset.Ico 1 (m + 1)).filter (fun t => t ≤ j ∧ j % 2 = t % 2) =
      (Finset.Ico 1 (j + 1)).filter (fun t => t % 2 = j % 2) by
    ext t
    simp only [Finset.mem_filter, Finset.mem_Ico]
    omega]
  rw [Finset.mul_sum]

theorem evalU_parity_sum (x : ℝ) : ∀ j : ℕ,
    evalU x ((j : ℤ) - 1) =
      2 * (∑ t in (Finset.Ico 1 (j + 1)).filter (fun t => t % 2 = j % 2),
        evalT x ((t : ℤ) - 1)) - (if j % 2 = 1 then 1 else 0) := by
  intro j
  induction j using Nat.twoStepInduction with
  | zero =>
    simp [evalU, Polynomial.Chebyshev.U_neg_one]
  | one =>
    rw [show (Finset.Ico 1 (1 + 1)).filter (fun t => t % 2 = 1 % 2) = {1} by decide]
    rw [Finset.sum_singleton]
    rw [show ((1 : ℕ) : ℤ) - 1 = 0 by norm_num, evalT_zero]
    simp only [evalU, Polynomial.Chebyshev.U_zero, Polynomial.eval_one, Nat.one_mod,
      if_pos rfl]
    norm_num
  | more n ihn _ =>
    have hU := evalU_add_two x ((n : ℤ) - 1)
    rw [show ((n : ℤ) - 1 + 2) = (n : ℤ) + 1 by ring] at hU
    rw [show (((n + 2 : ℕ)) : ℤ) - 1 = (n : ℤ) + 1 by push_cast; ring]
    rw [hU, ihn]
    have hset : (Finset.Ico 1 (n + 2 + 1)).filter (fun t => t % 2 = (n + 2) % 2) =
        insert (n + 2) ((Finset.Ico 1 (n + 1)).filter (fun t => t % 2 = n % 2)) := by
      ext t
      simp only [Finset.mem_filter, Finset.mem_Ico, Finset.mem_insert]
      omega
    rw [hset, Finset.sum_insert (by
      simp only [Finset.mem_filter, Finset.mem_Ico]
      omega)]
    rw [show ((n + 2 : ℕ) : ℤ) - 1 = (n : ℤ) + 1 by push_cast; ring]
    rw [show (n + 2) % 2 = n % 2 by omega]
    ring

theorem deriv_sum_eq (x : ℝ) (c : ℕ → ℝ) (n : ℕ) :
    (Polynomial.derivative (∑ j in Finset.range n,
        Polynomial.C (c j) * Polynomial.Chebyshev.T ℝ (j : ℤ))).eval x =
      ∑ j in Finset.range n, (j : ℝ) * c j * evalU x ((j : ℤ) - 1) := by
  rw [map_sum Polynomial.derivative, Polynomial.eval_finset_sum]
  apply Finset.sum_congr rfl
  intro j hj
  rw [Polynomial.derivative_C_mul, Polynomial.Chebyshev.T_derivative_eq_U]
  simp only [Polynomial.eval_mul, Polynomial.eval_C, Polynomial.eval_intCast, evalU]
  push_cast
  ring

theorem swiEdcheb_correct (x : ℝ) (c : ℕ → ℝ) (ncf : ℕ) (h1 : 1 ≤ ncf) :
    swiEdcheb x c ncf =
      (Polynomial.derivative (∑ j in Finset.range ncf,
        Polynomial.C (c j) * Polynomial.Chebyshev.T ℝ (j : ℤ))).eval x := by
  obtain ⟨m, rfl⟩ : ∃ m, ncf = m + 1 := ⟨ncf - 1, by omega⟩
  rcases Nat.eq_zero_or_pos m with hm | hm
  · subst hm
    have hL : swiEdcheb x c 1 = 0 := by
      simp only [swiEdcheb, Nat.sub_self, edchebLoop]
      norm_num
    rw [hL, Finset.range_one, Finset.sum_singleton]
    rw [show ((0 : ℕ) : ℤ) = 0 from rfl, Polynomial.Chebyshev.T_zero]
    simp
  · rw [swiEdcheb_eq_sum x c m hm, sum_XT_swap, deriv_sum_eq]
    rw [edXd_closed c m (m + 1) 1 le_rfl (by omega)]
    rw [Finset.range_eq_Ico, Finset.sum_eq_sum_Ico_succ_bot (by omega : 0 < m + 1)]
    rw [show ((0 : ℕ) : ℝ) * c 0 * evalU x ((0 : ℕ) - 1 : ℤ) = 0 by norm_num, zero_add]
    rw [Finset.sum_filter, Finset.sum_div, ← Finset.sum_sub_distrib]
    apply Finset.sum_congr rfl
    intro j hj
    have hB := evalU_parity_sum x j
    by_cases hpar : j % 2 = 1
    · rw [if_pos hpar] at hB
      rw [if_pos (show j % 2 = 1 % 2 by omega)]
      linear_combination (-(j : ℝ) * c j) * hB
    · rw [if_neg hpar, sub_zero] at hB
      rw [if_neg (show ¬j % 2 = 1 % 2 by omega)]
      linear_combination (-(j : ℝ) * c j) * hB

/-- C10: `swiEdcheb` is total on the embedding by construction; it never
reads the coefficients outside the index range `[1, ncf-1]` (its value
only depends on the coefficients there), and for `ncf ≤ 1` it returns
exactly 0. -/
theorem C10_swiEdcheb_reads_and_degenerate :
    (∀ (x : ℝ) (coef coef2 : List ℝ) (ncf : ℕ),
      (∀ j, 1 ≤ j → j ≤ ncf - 1 → coef.getD j 0 = coef2.getD j 0) →
      swiEdcheb x (fun j => coef.getD j 0) ncf =
        swiEdcheb x (fun j => coef2.getD j 0) ncf) ∧
    (∀ (x : ℝ) (coef : List ℝ) (ncf : ℕ), ncf ≤ 1 →
      swiEdcheb x (fun j => coef.getD j 0) ncf = 0) := by
  constructor
  · intro x coef coef2 ncf hc
    simp only [swiEdcheb]
    rw [edchebLoop_congr (x * 2.0) _ _ (ncf - 1) _ hc]
  · intro x coef ncf hn
    have : ncf - 1 = 0 := by omega
    simp only [swiEdcheb, this, edchebLoop]
    norm_num

/-- Witness for C10: coefficient lists `[9, 2, 3]` and `[7, 2, 3, 4]`
agree on indices 1 and 2, and a length-1 list gives 0. -/
theorem C10_swiEdcheb_witness :
    ((∀ j, 1 ≤ j → j ≤ 3 - 1 →
        ([9, 2, 3] : List ℝ).getD j 0 = ([7, 2, 3, 4] : List ℝ).getD j 0) ∧
      swiEdcheb 1 (fun j => ([9, 2, 3] : List ℝ).getD j 0) 3 =
        swiEdcheb 1 (fun j => ([7, 2, 3, 4] : List ℝ).getD j 0) 3) ∧
    ((1 : ℕ) ≤ 1 ∧ swiEdcheb 1 (fun j => ([5] : List ℝ).getD j 0) 1 = 0) := by
  have hagree : ∀ j, 1 ≤ j → j ≤ 3 - 1 →
      ([9, 2, 3] : List ℝ).getD j 0 = ([7, 2, 3, 4] : List ℝ).getD j 0 := by
    intro j h1 h2
    interval_cases j <;> norm_num
  exact ⟨⟨hagree, C10_swiEdcheb_reads_and_degenerate.1 1 [9, 2, 3] [7, 2, 3, 4] 3 hagree⟩,
    ⟨le_rfl, C10_swiEdcheb_reads_and_degenerate.2 1 [5] 1 le_rfl⟩⟩


/-- C1: for every coefficient list of length at least `ncf`, every
`ncf ≥ 1`, and every abscissa `x ∈ [-1, 1]`, `swiEdcheb` returns, in
exact real arithmetic, the derivative at `x` of the Chebyshev series
`∑ j < ncf, coef[j] * T j`. -/
theorem C1_swiEdcheb_chebyshev_derivative (x : ℝ) (coef : List ℝ) (ncf : ℕ)
    (h1 : 1 ≤ ncf) (_h2 : ncf ≤ coef.length) (_hx : x ∈ Set.Icc (-1 : ℝ) 1) :
    swiEdcheb x (fun j => coef.getD j 0) ncf =
      (Polynomial.derivative (∑ j in Finset.range ncf,
        Polynomial.C (coef.getD j 0) * Polynomial.Chebyshev.T ℝ (j : ℤ))).eval x :=
  swiEdcheb_correct x (fun j => coef.getD j 0) ncf h1

/-- Witness for C1: the list `[1, 2, 3]` with `ncf = 3` at `x = 1/2`. -/
theorem C1_swiEdcheb_witness :
    (1 : ℕ) ≤ 3 ∧ (3 : ℕ) ≤ ([1, 2, 3] : List ℝ).length ∧
      (1 / 2 : ℝ) ∈ Set.Icc (-1 : ℝ) 1 ∧
      swiEdcheb (1 / 2) (fun j => ([1, 2, 3] : List ℝ).getD j 0) 3 =
        (Polynomial.derivative (∑ j in Finset.range 3,
          Polynomial.C (([1, 2, 3] : List ℝ).getD j 0) *
            Polynomial.Chebyshev.T ℝ (j : ℤ))).eval (1 / 2) :=
  ⟨by norm_num, by norm_num, by rw [Set.mem_Icc]; norm_num,
    C1_swiEdcheb_chebyshev_derivative (1 / 2) [1, 2, 3] 3 (by norm_num)
      (by norm_num) (by rw [Set.mem_Icc]; norm_num)⟩


/-! ## Calendar conversion: SweJulday and SweRevjul (README.md lines 107-170)

The float64 arithmetic of the calendar routines is embedded as exact
rational arithmetic; `math.Floor` becomes `Int.floor` on `ℚ` and Go's
`int(...)` conversion becomes truncation toward zero.  The analysis
reduces both routines to integer normal forms (`jdZ`, `revZ`) and
settles the round trip there. -/

def SE_JUL_CAL : ℤ := 0
def SE_GREG_CAL : ℤ := 1

/-- Go's `int(x)` conversion from float64: truncation toward zero. -/
def goInt (q : ℚ) : ℤ := if 0 ≤ q then ⌊q⌋ else -⌊-q⌋

/-- `SweJulday` (README.md lines 107-129): Julian day number from a
calendar date; float64 arithmetic embedded as exact rationals. -/
def SweJulday (year month day : ℤ) (hour : ℚ) (gregflag : ℤ) : ℚ :=
  let u : ℚ := if month < 3 then (year : ℚ) - 1 else (year : ℚ)
  let u0 : ℚ := u + 4712.0
  let u1 : ℚ := if ((month : ℚ) + 1.0) < 4 then (month : ℚ) + 1.0 + 12.0
    else (month : ℚ) + 1.0
  let jd : ℚ := ⌊u0 * 365.25⌋ + ⌊30.6 * u1 + 0.000001⌋ + (day : ℚ)
    + hour / 24.0 - 63.5
  if gregflag = SE_GREG_CAL then
    let u2 : ℚ := if u < 0.0 then -(⌊|u| / 100⌋ - ⌊|u| / 400⌋ : ℤ)
      else ((⌊|u| / 100⌋ - ⌊|u| / 400⌋ : ℤ) : ℚ)
    let jd2 : ℚ := jd - u2 + 2
    if u < 0.0 ∧ u / 100 = (⌊u / 100⌋ : ℚ) ∧ u / 400 ≠ (⌊u / 400⌋ : ℚ) then
      jd2 - 1
    else jd2
  else jd

/-- `SweRevjul` (README.md lines 150-170): calendar date from a Julian
day number; returns `(jyear, jmon, jday, jut)`. -/
def SweRevjul (jd : ℚ) (gregflag : ℤ) : ℤ × ℤ × ℤ × ℚ :=
  let u0 : ℚ := jd + 32082.5
  let u0g : ℚ :=
    if gregflag = SE_GREG_CAL then
      let u1 : ℚ := u0 + ⌊u0 / 36525.0⌋ - ⌊u0 / 146100.0⌋ - 38.0
      let u1t : ℚ := if jd ≥ 1830691.5 then u1 + 1 else u1
      u0 + ⌊u1t / 36525.0⌋ - ⌊u1t / 146100.0⌋ - 38.0
    else u0
  let u2 : ℚ := ⌊u0g + 123.0⌋
  let u3 : ℚ := ⌊(u2 - 122.2) / 365.25⌋
  let u4 : ℚ := ⌊(u2 - ⌊365.25 * u3⌋) / 30.6001⌋
  let jmon0 : ℤ := goInt (u4 - 1.0)
  let jmon : ℤ := if jmon0 > 12 then jmon0 - 12 else jmon0
  let jday : ℤ := goInt (u2 - ⌊365.25 * u3⌋ - ⌊30.6001 * u4⌋)
  let jyear : ℤ := goInt (u3 + ⌊(u4 - 2.0) / 12.0⌋ - 4800)
  let jut : ℚ := (jd - ⌊jd + 0.5⌋ + 0.5) * 24.0
  (jyear, jmon, jday, jut)

/-- Truncation toward zero of an integer-valued rational is the integer. -/
theorem goInt_intCast (z : ℤ) : goInt (z : ℚ) = z := by
  unfold goInt
  by_cases hz : (0 : ℚ) ≤ (z : ℚ)
  · rw [if_pos hz, Int.floor_intCast]
  · rw [if_neg hz, ← Int.cast_neg, Int.floor_intCast, neg_neg]

/-- Floor of an integer plus a fractional part in `[0, 1)`. -/
theorem floor_add_frac (a : ℤ) (f : ℚ) (h0 : 0 ≤ f) (h1 : f < 1) :
    ⌊(a : ℚ) + f⌋ = a := by
  rw [Int.floor_int_add, Int.floor_eq_zero_iff.2 ⟨h0, h1⟩, add_zero]

/-- Floor of `(a + f) / b` for integer `a`, fractional `f ∈ [0, 1)`,
positive integer divisor `b`: the fractional part never matters. -/
theorem floor_div_frac (a : ℤ) (b : ℕ) (hb : 0 < b) (f : ℚ)
    (h0 : 0 ≤ f) (h1 : f < 1) :
    ⌊((a : ℚ) + f) / (b : ℚ)⌋ = a / (b : ℤ) := by
  have hbq : (0 : ℚ) < (b : ℚ) := by exact_mod_cast hb
  have hbz : (0 : ℤ) < (b : ℤ) := by exact_mod_cast hb
  have hd : (b : ℤ) * (a / b) + a % b = a := Int.ediv_add_emod a b
  have h2 : (0 : ℤ) ≤ a % b := Int.emod_nonneg a (by omega)
  have h3 : a % b < b := Int.emod_lt_of_pos a hbz
  have h3b : a % b ≤ (b : ℤ) - 1 := by omega
  have h3bq : ((a % b : ℤ) : ℚ) ≤ (b : ℚ) - 1 := by exact_mod_cast h3b
  have hdq : ((b : ℤ) : ℚ) * ((a / (b : ℤ) : ℤ) : ℚ) + ((a % b : ℤ) : ℚ) = a := by
    exact_mod_cast congrArg (fun z : ℤ => (z : ℚ)) hd
  have h2q : (0 : ℚ) ≤ ((a % b : ℤ) : ℚ) := by exact_mod_cast h2
  have h3q : ((a % b : ℤ) : ℚ) < (b : ℚ) := by exact_mod_cast h3
  rw [Int.floor_eq_iff]
  constructor
  · rw [le_div_iff₀ hbq]
    push_cast at hdq ⊢
    linarith
  · rw [div_lt_iff₀ hbq]
    push_cast at hdq h2q h3bq ⊢
    linarith


/-- Floor of an integer divided by a positive integer literal. -/
theorem floor_intCast_div (a : ℤ) (b : ℕ) :
    ⌊(a : ℚ) / (b : ℚ)⌋ = a / (b : ℤ) := Rat.floor_intCast_div_natCast a b

/-- The divisibility reading of the float test `u / n == floor(u / n)`. -/
theorem div_eq_floor_iff_dvd (u : ℤ) (n : ℕ) (hn : 0 < n) :
    (u : ℚ) / (n : ℚ) = (⌊(u : ℚ) / (n : ℚ)⌋ : ℚ) ↔ (n : ℤ) ∣ u := by
  rw [floor_intCast_div]
  have hq : (0 : ℚ) < (n : ℚ) := by exact_mod_cast hn
  rw [div_eq_iff (ne_of_gt hq)]
  constructor
  · intro h
    have h2 : u = u / (n : ℤ) * n := by exact_mod_cast h
    exact ⟨u / (n : ℤ), by
      linarith [h2, mul_comm (u / (n : ℤ)) ((n : ℕ) : ℤ)]⟩
  · rintro ⟨k, rfl⟩
    have : ((n : ℤ) * k) / (n : ℤ) = k := by
      rw [Int.mul_ediv_cancel_left _ (by omega)]
    rw [this]
    push_cast
    ring

/-- Integer form of `SweJulday`: the returned Julian day number is
`jdZ + hour/24 - 1/2` with `jdZ` computed in integer arithmetic. -/
def jdZ (year month day : ℤ) (gregflag : ℤ) : ℤ :=
  let u : ℤ := if month < 3 then year - 1 else year
  let u1 : ℤ := if month < 3 then month + 13 else month + 1
  let jdJ : ℤ := 1461 * (u + 4712) / 4 + (30600000 * u1 + 1) / 1000000 + day - 63
  if gregflag = SE_GREG_CAL then jdJ - (u / 100 - u / 400) + 2 else jdJ

/-- The Gregorian century correction of `SweJulday`, including the
negative-year fix-up, equals the floor-division expression
`u/100 - u/400` uniformly in the year. -/
theorem gregCorr (u : ℤ) :
    ((if (u : ℚ) < 0 then -(⌊|(u : ℚ)| / 100⌋ - ⌊|(u : ℚ)| / 400⌋ : ℤ)
        else ((⌊|(u : ℚ)| / 100⌋ - ⌊|(u : ℚ)| / 400⌋ : ℤ) : ℚ)) : ℚ)
      + (if (u : ℚ) < 0 ∧ (u : ℚ) / 100 = (⌊(u : ℚ) / 100⌋ : ℚ)
            ∧ (u : ℚ) / 400 ≠ (⌊(u : ℚ) / 400⌋ : ℚ) then (1 : ℚ) else 0)
      = ((u / 100 - u / 400 : ℤ) : ℚ) := by
  have habs : |(u : ℚ)| = ((|u| : ℤ) : ℚ) := by push_cast; rfl
  have h100 : ⌊|(u : ℚ)| / 100⌋ = |u| / 100 := by
    rw [habs, show (100 : ℚ) = ((100 : ℕ) : ℚ) by norm_num, floor_intCast_div]
    norm_num
  have h400 : ⌊|(u : ℚ)| / 400⌋ = |u| / 400 := by
    rw [habs, show (400 : ℚ) = ((400 : ℕ) : ℚ) by norm_num, floor_intCast_div]
    norm_num
  have hc100 : ((u : ℚ) / 100 = (⌊(u : ℚ) / 100⌋ : ℚ)) ↔ (100 : ℤ) ∣ u := by
    rw [show (100 : ℚ) = ((100 : ℕ) : ℚ) by norm_num]
    exact_mod_cast div_eq_floor_iff_dvd u 100 (by norm_num)
  have hc400 : ((u : ℚ) / 400 = (⌊(u : ℚ) / 400⌋ : ℚ)) ↔ (400 : ℤ) ∣ u := by
    rw [show (400 : ℚ) = ((400 : ℕ) : ℚ) by norm_num]
    exact_mod_cast div_eq_floor_iff_dvd u 400 (by norm_num)
  have hu0 : ((u : ℚ) < 0) ↔ u < 0 := by exact_mod_cast Iff.rfl
  rw [h100, h400]
  rcases lt_or_le u 0 with hneg | hpos
  · rw [if_pos (hu0.2 hneg)]
    by_cases hdvd : (100 : ℤ) ∣ u ∧ ¬(400 : ℤ) ∣ u
    · rw [if_pos ⟨hu0.2 hneg, hc100.2 hdvd.1, fun hx => hdvd.2 (hc400.1 hx)⟩]
      have : -(|u| / 100 - |u| / 400) + 1 = u / 100 - u / 400 := by
        rw [abs_of_neg hneg]
        omega
      exact_mod_cast congrArg (fun z : ℤ => (z : ℚ)) this
    · rw [if_neg (by
        rintro ⟨-, hx, hy⟩
        exact hdvd ⟨hc100.1 hx, fun hz => hy (hc400.2 hz)⟩)]
      push_neg at hdvd
      have : -(|u| / 100 - |u| / 400) + 0 = u / 100 - u / 400 := by
        by_cases h1 : (100 : ℤ) ∣ u
        · have h4 : (400 : ℤ) ∣ u := hdvd h1
          rw [abs_of_neg hneg]
          omega
        · rw [abs_of_neg hneg]
          omega
      exact_mod_cast congrArg (fun z : ℤ => (z : ℚ)) this
  · rw [if_neg (by rw [hu0]; omega)]
    rw [if_neg (by rintro ⟨hx, -, -⟩; rw [hu0] at hx; omega)]
    have : (|u| / 100 - |u| / 400) + 0 = u / 100 - u / 400 := by
      rw [abs_of_nonneg hpos]
      omega
    exact_mod_cast congrArg (fun z : ℤ => (z : ℚ)) this


theorem floor_u0_mul (uz : ℤ) :
    ⌊((uz : ℚ) + 4712.0) * 365.25⌋ = 1461 * (uz + 4712) / 4 := by
  rw [show ((uz : ℚ) + 4712.0) * 365.25
      = ((1461 * (uz + 4712) : ℤ) : ℚ) / ((4 : ℕ) : ℚ) by push_cast; ring]
  exact floor_intCast_div _ _

theorem floor_month_table (u1z : ℤ) :
    ⌊30.6 * (u1z : ℚ) + 0.000001⌋ = (30600000 * u1z + 1) / 1000000 := by
  rw [show 30.6 * (u1z : ℚ) + 0.000001
      = ((30600000 * u1z + 1 : ℤ) : ℚ) / ((1000000 : ℕ) : ℚ) by push_cast; ring]
  exact floor_intCast_div _ _

/-- `SweJulday` in integer normal form: the result is exactly
`jdZ year month day gregflag + hour/24 - 1/2`. -/
theorem SweJulday_eq (y m d : ℤ) (h : ℚ) (gf : ℤ) :
    SweJulday y m d h gf = ((jdZ y m d gf : ℤ) : ℚ) + h / 24 - 1 / 2 := by
  have h00 : (0.0 : ℚ) = 0 := by norm_num
  by_cases hm : m < 3
  · have h3q : (m : ℚ) < 3 := by exact_mod_cast hm
    have hmc : (m : ℚ) + 1.0 < 4 := by linarith [h3q]
    have hu : ((y : ℚ) - 1) = ((y - 1 : ℤ) : ℚ) := by push_cast; ring
    have hu1 : (m : ℚ) + 1.0 + 12.0 = ((m + 13 : ℤ) : ℚ) := by push_cast; ring
    simp only [SweJulday, jdZ, if_pos hm, if_pos hmc, hu, hu1, floor_u0_mul,
      floor_month_table, h00]
    by_cases hgf : gf = SE_GREG_CAL
    · rw [if_pos hgf, if_pos hgf]
      have hc := gregCorr (y - 1)
      split_ifs at hc ⊢ <;> (push_cast at hc ⊢; linarith)
    · rw [if_neg hgf, if_neg hgf]
      push_cast
      ring
  · have hmc2 : ¬(((m + 1 : ℤ) : ℚ) < 4) := by
      intro hx
      have hx2 : (m : ℤ) + 1 < 4 := by exact_mod_cast hx
      omega
    have hu1 : (m : ℚ) + 1.0 = ((m + 1 : ℤ) : ℚ) := by push_cast; ring
    simp only [SweJulday, jdZ, if_neg hm, hu1, if_neg hmc2, floor_u0_mul,
      floor_month_table, h00]
    by_cases hgf : gf = SE_GREG_CAL
    · rw [if_pos hgf, if_pos hgf]
      have hc := gregCorr y
      split_ifs at hc ⊢ <;> (push_cast at hc ⊢; linarith)
    · rw [if_neg hgf, if_neg hgf]
      push_cast
      ring


theorem floor_u3_div (M : ℤ) :
    ⌊((M : ℚ) - 122.2) / 365.25⌋ = (20 * M - 2444) / 7305 := by
  rw [show ((M : ℚ) - 122.2) / 365.25 = ((20 * M - 2444 : ℤ) : ℚ) / ((7305 : ℕ) : ℚ) by
    push_cast
    rw [div_eq_div_iff (by norm_num) (by norm_num)]
    ring]
  exact floor_intCast_div _ _

theorem floor_mul36525 (z : ℤ) : ⌊365.25 * (z : ℚ)⌋ = 1461 * z / 4 := by
  rw [show 365.25 * (z : ℚ) = ((1461 * z : ℤ) : ℚ) / ((4 : ℕ) : ℚ) by push_cast; ring]
  exact floor_intCast_div _ _

theorem floor_u4_div (r : ℤ) : ⌊(r : ℚ) / 30.6001⌋ = 10000 * r / 306001 := by
  rw [show (r : ℚ) / 30.6001 = ((10000 * r : ℤ) : ℚ) / ((306001 : ℕ) : ℚ) by
    push_cast
    rw [div_eq_div_iff (by norm_num) (by norm_num)]
    ring]
  exact floor_intCast_div _ _

theorem floor_mul306001 (z : ℤ) : ⌊30.6001 * (z : ℚ)⌋ = 306001 * z / 10000 := by
  rw [show 30.6001 * (z : ℚ) = ((306001 * z : ℤ) : ℚ) / ((10000 : ℕ) : ℚ) by
    push_cast; ring]
  exact floor_intCast_div _ _

theorem floor_div12 (z : ℤ) : ⌊((z : ℚ) - 2.0) / 12.0⌋ = (z - 2) / 12 := by
  rw [show ((z : ℚ) - 2.0) / 12.0 = ((z - 2 : ℤ) : ℚ) / ((12 : ℕ) : ℚ) by
    push_cast; ring]
  exact floor_intCast_div _ _

/-- The Gregorian-correction stage of `SweRevjul` in integer form:
the corrected count before the day/month/year extraction. -/
def revCorr (N : ℤ) (gregflag : ℤ) : ℤ :=
  let P : ℤ := N + 32082
  if gregflag = SE_GREG_CAL then
    let q1 : ℤ := P + P / 36525 - P / 146100 - 38
    let q1t : ℤ := if 1830692 ≤ N then q1 + 1 else q1
    P + q1t / 36525 - q1t / 146100 - 38
  else P

/-- The extraction stage of `SweRevjul` in integer form: year, month
and day from the corrected integer count `u2`. -/
def revTail (u2 : ℤ) : ℤ × ℤ × ℤ :=
  let u3 : ℤ := (20 * u2 - 2444) / 7305
  let r : ℤ := u2 - 1461 * u3 / 4
  let u4 : ℤ := 10000 * r / 306001
  let jmon0 : ℤ := u4 - 1
  let jmon : ℤ := if jmon0 > 12 then jmon0 - 12 else jmon0
  let jday : ℤ := r - 306001 * u4 / 10000
  let jyear : ℤ := u3 + (u4 - 2) / 12 - 4800
  (jyear, jmon, jday)

/-- Integer form of `SweRevjul` on inputs `N + hour/24 - 1/2`:
the returned `(jyear, jmon, jday)` as integer arithmetic on `N`. -/
def revZ (N : ℤ) (gregflag : ℤ) : ℤ × ℤ × ℤ :=
  revTail (revCorr N gregflag + 123)

/-- `SweRevjul` in integer normal form: on a Julian day number of the
shape `N + hour/24 - 1/2`, the date components are `revZ N gregflag`
and the returned hour is exactly the input hour. -/
theorem SweRevjul_eq (N : ℤ) (h : ℚ) (h0 : 0 ≤ h) (h24 : h < 24) (gf : ℤ) :
    SweRevjul ((N : ℚ) + h / 24 - 1 / 2) gf =
      ((revZ N gf).1, (revZ N gf).2.1, (revZ N gf).2.2, h) := by
  have hf0 : (0 : ℚ) ≤ h / 24 := by positivity
  have hf1 : h / 24 < 1 := (div_lt_one (by norm_num)).2 h24
  have e1 : (N : ℚ) + h / 24 - 1 / 2 + 32082.5 = ((N + 32082 : ℤ) : ℚ) + h / 24 := by
    push_cast
    ring
  have e36525 : (36525.0 : ℚ) = ((36525 : ℕ) : ℚ) := by norm_num
  have e146100 : (146100.0 : ℚ) = ((146100 : ℕ) : ℚ) := by norm_num
  have ejut : (N : ℚ) + h / 24 - 1 / 2 + 0.5 = ((N : ℤ) : ℚ) + h / 24 := by
    ring
  by_cases hgf : gf = SE_GREG_CAL
  · by_cases hN : 1830692 ≤ N
    · have hcond : ((N : ℚ) + h / 24 - 1 / 2) ≥ 1830691.5 := by
        have : (1830692 : ℚ) ≤ (N : ℚ) := by exact_mod_cast hN
        norm_num
        linarith
      simp only [SweRevjul, revZ, revCorr, revTail, if_pos hgf, if_pos hN, if_pos hcond, e1,
        e36525, e146100, ejut,
        floor_div_frac _ 36525 (by norm_num) (h / 24) hf0 hf1,
        floor_div_frac _ 146100 (by norm_num) (h / 24) hf0 hf1]
      simp only [Nat.cast_ofNat]
      rw [show ((N + 32082 : ℤ) : ℚ) + h / 24
            + ((N + 32082) / 36525 : ℤ) - ((N + 32082) / 146100 : ℤ) - 38.0 + 1
          = ((N + 32082 + (N + 32082) / 36525 - (N + 32082) / 146100 - 38 + 1 : ℤ) : ℚ)
            + h / 24 by push_cast; ring]
      rw [show (36525 : ℚ) = ((36525 : ℕ) : ℚ) by norm_num,
        show (146100 : ℚ) = ((146100 : ℕ) : ℚ) by norm_num]
      rw [floor_div_frac _ 36525 (by norm_num) (h / 24) hf0 hf1,
        floor_div_frac _ 146100 (by norm_num) (h / 24) hf0 hf1]
      simp only [Nat.cast_ofNat]
      rw [show ∀ (A B : ℤ), ((N + 32082 : ℤ) : ℚ) + h / 24 + (A : ℤ) - (B : ℤ)
            - 38.0 + 123.0
          = ((N + 32082 + A - B - 38 + 123 : ℤ) : ℚ) + h / 24 from by
        intro A B
        push_cast
        ring]
      rw [floor_add_frac _ (h / 24) hf0 hf1]
      rw [floor_u3_div, floor_mul36525]
      rw [show ∀ (M C : ℤ), ((M : ℤ) : ℚ) - (C : ℤ) = ((M - C : ℤ) : ℚ) from by
        intro M C
        push_cast
        ring]
      rw [floor_u4_div, floor_mul306001, floor_div12]
      rw [show ∀ (z : ℤ), ((z : ℤ) : ℚ) - 1.0 = ((z - 1 : ℤ) : ℚ) from by
        intro z
        push_cast
        ring]
      rw [show ∀ (M C : ℤ), ((M : ℤ) : ℚ) - (C : ℤ) = ((M - C : ℤ) : ℚ) from by
        intro M C
        push_cast
        ring]
      rw [show ∀ (A B : ℤ), ((A : ℤ) : ℚ) + (B : ℤ) - 4800 = ((A + B - 4800 : ℤ) : ℚ)
          from by
        intro A B
        push_cast
        ring]
      rw [floor_add_frac N (h / 24) hf0 hf1]
      simp only [goInt_intCast, Prod.mk.injEq]
      exact ⟨trivial, trivial, trivial, by ring⟩
    · have hcond : ¬(((N : ℚ) + h / 24 - 1 / 2) ≥ 1830691.5) := by
        have hNq : (N : ℚ) ≤ 1830691 := by exact_mod_cast (by omega : N ≤ 1830691)
        intro hx
        rw [ge_iff_le, show (1830691.5 : ℚ) = 1830691 + 1 / 2 by norm_num] at hx
        linarith
      simp only [SweRevjul, revZ, revCorr, revTail, if_pos hgf, if_neg hN, if_neg hcond, e1,
        e36525, e146100, ejut,
        floor_div_frac _ 36525 (by norm_num) (h / 24) hf0 hf1,
        floor_div_frac _ 146100 (by norm_num) (h / 24) hf0 hf1]
      simp only [Nat.cast_ofNat]
      rw [show ((N + 32082 : ℤ) : ℚ) + h / 24
            + ((N + 32082) / 36525 : ℤ) - ((N + 32082) / 146100 : ℤ) - 38.0
          = ((N + 32082 + (N + 32082) / 36525 - (N + 32082) / 146100 - 38 : ℤ) : ℚ)
            + h / 24 by push_cast; ring]
      rw [show (36525 : ℚ) = ((36525 : ℕ) : ℚ) by norm_num,
        show (146100 : ℚ) = ((146100 : ℕ) : ℚ) by norm_num]
      rw [floor_div_frac _ 36525 (by norm_num) (h / 24) hf0 hf1,
        floor_div_frac _ 146100 (by norm_num) (h / 24) hf0 hf1]
      simp only [Nat.cast_ofNat]
      rw [show ∀ (A B : ℤ), ((N + 32082 : ℤ) : ℚ) + h / 24 + (A : ℤ) - (B : ℤ)
            - 38.0 + 123.0
          = ((N + 32082 + A - B - 38 + 123 : ℤ) : ℚ) + h / 24 from by
        intro A B
        push_cast
        ring]
      rw [floor_add_frac _ (h / 24) hf0 hf1]
      rw [floor_u3_div, floor_mul36525]
      rw [show ∀ (M C : ℤ), ((M : ℤ) : ℚ) - (C : ℤ) = ((M - C : ℤ) : ℚ) from by
        intro M C
        push_cast
        ring]
      rw [floor_u4_div, floor_mul306001, floor_div12]
      rw [show ∀ (z : ℤ), ((z : ℤ) : ℚ) - 1.0 = ((z - 1 : ℤ) : ℚ) from by
        intro z
        push_cast
        ring]
      rw [show ∀ (M C : ℤ), ((M : ℤ) : ℚ) - (C : ℤ) = ((M - C : ℤ) : ℚ) from by
        intro M C
        push_cast
        ring]
      rw [show ∀ (A B : ℤ), ((A : ℤ) : ℚ) + (B : ℤ) - 4800 = ((A + B - 4800 : ℤ) : ℚ)
          from by
        intro A B
        push_cast
        ring]
      rw [floor_add_frac N (h / 24) hf0 hf1]
      simp only [goInt_intCast, Prod.mk.injEq]
      exact ⟨trivial, trivial, trivial, by ring⟩
  · simp only [SweRevjul, revZ, revCorr, revTail, if_neg hgf, e1, ejut]
    rw [show ((N + 32082 : ℤ) : ℚ) + h / 24 + 123.0
        = ((N + 32082 + 123 : ℤ) : ℚ) + h / 24 by push_cast; ring]
    rw [floor_add_frac _ (h / 24) hf0 hf1]
    rw [floor_u3_div, floor_mul36525]
    rw [show ∀ (M C : ℤ), ((M : ℤ) : ℚ) - (C : ℤ) = ((M - C : ℤ) : ℚ) from by
      intro M C
      push_cast
      ring]
    rw [floor_u4_div, floor_mul306001, floor_div12]
    rw [show ∀ (z : ℤ), ((z : ℤ) : ℚ) - 1.0 = ((z - 1 : ℤ) : ℚ) from by
      intro z
      push_cast
      ring]
    rw [show ∀ (M C : ℤ), ((M : ℤ) : ℚ) - (C : ℤ) = ((M - C : ℤ) : ℚ) from by
      intro M C
      push_cast
      ring]
    rw [show ∀ (A B : ℤ), ((A : ℤ) : ℚ) + (B : ℤ) - 4800 = ((A + B - 4800 : ℤ) : ℚ)
        from by
      intro A B
      push_cast
      ring]
    rw [floor_add_frac N (h / 24) hf0 hf1]
    simp only [goInt_intCast, Prod.mk.injEq]
    exact ⟨trivial, trivial, trivial, by ring⟩


/-- The step function `x / 36525 - x / 146100` on the window of Julian
day counts reachable two stages after the Gregorian correction. -/
theorem diff_window (x : ℤ) (hlo : 1716675 ≤ x) (hhi : x ≤ 1935824) :
    x / 36525 - x / 146100 =
      if x ≤ 1789724 then 36
      else if x ≤ 1826249 then 37
      else if x ≤ 1862774 then 38
      else 39 := by
  split_ifs <;> omega

set_option maxHeartbeats 4000000 in
/-- The two-stage Gregorian correction requirement: the corrected count
`E` falls in the bracket whose step value is `rr / 100 + 36`. -/
theorem greg_req (k rr T c s tw E : ℤ)
    (hk : -10010 ≤ k ∧ k ≤ 10010) (hr : 0 ≤ rr ∧ rr ≤ 399)
    (hT : 123 ≤ T ∧ T ≤ 488)
    (hc : c = 1461 * rr / 4 + T + 1753079 - rr / 100)
    (hs : s = c - 3 * k)
    (htw : (tw = 1 ∧ 1862774 ≤ 146097 * k + c) ∨ (tw = 0 ∧ 146097 * k + c < 1862774))
    (hE : E = c + (s / 36525 - s / 146100) - 38 + tw)
    (hFeb : T = 488 → ((rr + 1) % 4 = 0 ∧ ((rr + 1) % 100 ≠ 0 ∨ rr = 399))) :
    E / 36525 - E / 146100 = rr / 100 + 36 := by
  have hcb : 1753202 ≤ c ∧ c ≤ 1899298 := by omega
  have hsb : 1723172 ≤ s ∧ s ≤ 1929328 := by omega
  have hds : 36 ≤ s / 36525 - s / 146100 ∧ s / 36525 - s / 146100 ≤ 39 := by omega
  have hdw := diff_window s (by omega) (by omega)
  have hEw := diff_window E (by omega) (by omega)
  rw [hEw]
  have hg4 : rr / 100 = 0 ∨ rr / 100 = 1 ∨ rr / 100 = 2 ∨ rr / 100 = 3 := by omega
  by_cases hT488 : T = 488
  · obtain ⟨hf1, hf2⟩ := hFeb hT488
    rcases hg4 with hg | hg | hg | hg <;>
      rcases hf2 with hf2 | hf2 <;>
        (rcases htw with ⟨htw1, hcond⟩ | ⟨htw0, hcond⟩ <;>
          (split_ifs at hdw ⊢ <;> omega))
  · rcases hg4 with hg | hg | hg | hg <;>
      rcases htw with ⟨htw1, hcond⟩ | ⟨htw0, hcond⟩ <;>
        (split_ifs at hdw ⊢ <;> omega)


/-- Splitting an integer division along a multiple of `4 * 36525`. -/
theorem div_split_36525 (k x : ℤ) :
    (146100 * k + x) / 36525 = 4 * k + x / 36525 := by omega

/-- Splitting an integer division along a multiple of `146100`. -/
theorem div_split_146100 (k x : ℤ) :
    (146100 * k + x) / 146100 = k + x / 146100 := by omega

/-- The Gregorian-correction stage exactly undoes the forward Gregorian
century correction for `|u| ≤ 4000001`, turning the count back into the
Julian-calendar shape `1461 u / 4 + T + 1753200`. -/
theorem revCorr_greg (N u T : ℤ)
    (hN : N = 1461 * u / 4 + T + 1720997 - (u / 100 - u / 400))
    (hu : -4000001 ≤ u ∧ u ≤ 4000001)
    (hT : 123 ≤ T ∧ T ≤ 488)
    (hFeb : T = 488 → ((u + 1) % 4 = 0 ∧ ((u + 1) % 100 ≠ 0 ∨ (u + 1) % 400 = 0))) :
    revCorr N 1 + 123 = 1461 * u / 4 + T + 1753200 := by
  obtain ⟨k, rr, hkr, hr0, hr399⟩ :
      ∃ k rr, u = 400 * k + rr ∧ 0 ≤ rr ∧ rr ≤ 399 :=
    ⟨u / 400, u % 400, by omega, by omega, by omega⟩
  obtain ⟨c, hc⟩ : ∃ c : ℤ, c = 1461 * rr / 4 + T + 1753079 - rr / 100 := ⟨_, rfl⟩
  obtain ⟨s, hs⟩ : ∃ s : ℤ, s = c - 3 * k := ⟨_, rfl⟩
  have f1 : 1461 * u / 4 = 146100 * k + 1461 * rr / 4 := by omega
  have f2 : u / 100 = 4 * k + rr / 100 := by omega
  have f3 : u / 400 = k := by omega
  have hP : N + 32082 = 146100 * k + s := by omega
  have hFeb2 : T = 488 → ((rr + 1) % 4 = 0 ∧ ((rr + 1) % 100 ≠ 0 ∨ rr = 399)) := by
    intro h488
    obtain ⟨hf1, hf2⟩ := hFeb h488
    refine ⟨by omega, ?_⟩
    rcases hf2 with hf2 | hf2
    · left
      omega
    · right
      omega
  simp only [revCorr, SE_GREG_CAL, eq_self_iff_true, if_true]
  rw [hP, div_split_36525, div_split_146100]
  have hkb1 : -10010 ≤ k := by linarith
  have hkb2 : k ≤ 10010 := by linarith
  by_cases htwc : 1830692 ≤ N
  · rw [if_pos htwc]
    have hcond : 1862774 ≤ 146097 * k + c := by linarith
    have e3 : 146100 * k + s + (4 * k + s / 36525) - (k + s / 146100) - 38 + 1
        = 146100 * k + (c + (s / 36525 - s / 146100) - 38 + 1) := by linarith
    rw [e3, div_split_36525, div_split_146100]
    have hreq := greg_req k rr T c s 1 (c + (s / 36525 - s / 146100) - 38 + 1)
      ⟨hkb1, hkb2⟩ ⟨hr0, hr399⟩ hT hc hs (Or.inl ⟨rfl, hcond⟩) rfl hFeb2
    linarith
  · rw [if_neg htwc]
    have hcond : 146097 * k + c < 1862774 := by linarith [not_le.1 htwc]
    have e3 : 146100 * k + s + (4 * k + s / 36525) - (k + s / 146100) - 38
        = 146100 * k + (c + (s / 36525 - s / 146100) - 38 + 0) := by linarith
    rw [e3, div_split_36525, div_split_146100]
    have hreq := greg_req k rr T c s 0 (c + (s / 36525 - s / 146100) - 38 + 0)
      ⟨hkb1, hkb2⟩ ⟨hr0, hr399⟩ hT hc hs (Or.inr ⟨rfl, hcond⟩) rfl hFeb2
    linarith

/-- The extraction stage of `SweRevjul` recovers intercalation year,
shifted month index and day from a count `1461 u / 4 + T + 1753200`. -/
theorem revTail_recover (M u T u1 d : ℤ)
    (hM : M = 1461 * u / 4 + T + 1753200)
    (hcon : 2444 + 5 * (u % 4) ≤ 20 * T ∧ 20 * T < 9749 + 5 * (u % 4))
    (hwin : 306001 * u1 ≤ 10000 * T ∧ 10000 * T < 306001 * (u1 + 1))
    (hu1 : 4 ≤ u1 ∧ u1 ≤ 15)
    (hTb : T = (30600000 * u1 + 1) / 1000000 + d) :
    revTail M = (u + (u1 - 2) / 12,
      if u1 - 1 > 12 then u1 - 1 - 12 else u1 - 1, d) := by
  simp only [revTail]
  have h20 : 20 * (1461 * u / 4) = 7305 * u - 5 * (u % 4) := by omega
  have h2 : (20 * M - 2444) / 7305 = u + 4800 := by omega
  rw [h2]
  have h3 : 1461 * (u + 4800) / 4 = 1461 * u / 4 + 1753200 := by omega
  rw [h3]
  have h4 : M - (1461 * u / 4 + 1753200) = T := by omega
  rw [h4]
  have h5 : 10000 * T / 306001 = u1 := by omega
  rw [h5]
  obtain ⟨hu1a, hu1b⟩ := hu1
  have h6 : 306001 * u1 / 10000 = (30600000 * u1 + 1) / 1000000 := by
    interval_cases u1 <;> decide
  rw [h6]
  simp only [Prod.mk.injEq]
  exact ⟨by omega, trivial, by omega⟩



/-- Modelled from the spec: the length of a calendar month, with the
Gregorian or Julian (proleptic, astronomical year numbering) leap rule
selected by `gregflag`. -/
def monthLen (y m gf : ℤ) : ℤ :=
  if m = 2 then
    (if gf = 1 then (if (y % 4 = 0 ∧ y % 100 ≠ 0) ∨ y % 400 = 0 then 29 else 28)
     else (if y % 4 = 0 then 29 else 28))
  else if m = 4 ∨ m = 6 ∨ m = 9 ∨ m = 11 then 30 else 31

/-- Modelled from the spec: a date that is valid in the selected
calendar. -/
def validDate (y m d gf : ℤ) : Prop :=
  1 ≤ m ∧ m ≤ 12 ∧ 1 ≤ d ∧ d ≤ monthLen y m gf

/-- The integer round trip: `revZ` inverts `jdZ` on valid dates, for
every year in the Julian calendar and for `|year| ≤ 4000000` in the
Gregorian calendar. -/
theorem roundtrip_core (y m d gf : ℤ) (hgf : gf = 0 ∨ gf = 1)
    (hv : validDate y m d gf) (hy : gf = 1 → -4000000 ≤ y ∧ y ≤ 4000000) :
    revZ (jdZ y m d gf) gf = (y, m, d) := by
  obtain ⟨hm1, hm12, hd1, hdmax⟩ := hv
  rcases hgf with rfl | rfl
  · interval_cases m
    · -- month 1, Julian
      norm_num [monthLen] at hdmax
      have hrec := revTail_recover (jdZ y 1 d 0 + 32082 + 123) (y - 1) (428 + d) 14 d
        (by simp only [jdZ, SE_GREG_CAL]; norm_num; omega)
        (by omega) (by omega) (by norm_num) (by omega)
      simp only [revZ, revCorr, SE_GREG_CAL]
      rw [if_neg (by norm_num : ¬(0 : ℤ) = 1), hrec]
      simp only [Prod.mk.injEq]
      exact ⟨by omega, by decide, trivial⟩
    · -- February, Julian
      norm_num [monthLen] at hdmax
      split_ifs at hdmax with hleap
      all_goals
        have hrec := revTail_recover (jdZ y 2 d 0 + 32082 + 123) (y - 1) (459 + d) 15 d
          (by simp only [jdZ, SE_GREG_CAL]; norm_num; omega)
          (by omega) (by omega) (by norm_num) (by omega)
      all_goals
        simp only [revZ, revCorr, SE_GREG_CAL]
        rw [if_neg (by norm_num : ¬(0 : ℤ) = 1), hrec]
        simp only [Prod.mk.injEq]
        exact ⟨by omega, by decide, trivial⟩
    · -- month 3, Julian
      norm_num [monthLen] at hdmax
      have hrec := revTail_recover (jdZ y 3 d 0 + 32082 + 123) y (122 + d) 4 d
        (by simp only [jdZ, SE_GREG_CAL]; norm_num; omega)
        (by omega) (by omega) (by norm_num) (by omega)
      simp only [revZ, revCorr, SE_GREG_CAL]
      rw [if_neg (by norm_num : ¬(0 : ℤ) = 1), hrec]
      simp only [Prod.mk.injEq]
      exact ⟨by omega, by decide, trivial⟩
    · -- month 4, Julian
      norm_num [monthLen] at hdmax
      have hrec := revTail_recover (jdZ y 4 d 0 + 32082 + 123) y (153 + d) 5 d
        (by simp only [jdZ, SE_GREG_CAL]; norm_num; omega)
        (by omega) (by omega) (by norm_num) (by omega)
      simp only [revZ, revCorr, SE_GREG_CAL]
      rw [if_neg (by norm_num : ¬(0 : ℤ) = 1), hrec]
      simp only [Prod.mk.injEq]
      exact ⟨by omega, by decide, trivial⟩
    · -- month 5, Julian
      norm_num [monthLen] at hdmax
      have hrec := revTail_recover (jdZ y 5 d 0 + 32082 + 123) y (183 + d) 6 d
        (by simp only [jdZ, SE_GREG_CAL]; norm_num; omega)
        (by omega) (by omega) (by norm_num) (by omega)
      simp only [revZ, revCorr, SE_GREG_CAL]
      rw [if_neg (by norm_num : ¬(0 : ℤ) = 1), hrec]
      simp only [Prod.mk.injEq]
      exact ⟨by omega, by decide, trivial⟩
    · -- month 6, Julian
      norm_num [monthLen] at hdmax
      have hrec := revTail_recover (jdZ y 6 d 0 + 32082 + 123) y (214 + d) 7 d
        (by simp only [jdZ, SE_GREG_CAL]; norm_num; omega)
        (by omega) (by omega) (by norm_num) (by omega)
      simp only [revZ, revCorr, SE_GREG_CAL]
      rw [if_neg (by norm_num : ¬(0 : ℤ) = 1), hrec]
      simp only [Prod.mk.injEq]
      exact ⟨by omega, by decide, trivial⟩
    · -- month 7, Julian
      norm_num [monthLen] at hdmax
      have hrec := revTail_recover (jdZ y 7 d 0 + 32082 + 123) y (244 + d) 8 d
        (by simp only [jdZ, SE_GREG_CAL]; norm_num; omega)
        (by omega) (by omega) (by norm_num) (by omega)
      simp only [revZ, revCorr, SE_GREG_CAL]
      rw [if_neg (by norm_num : ¬(0 : ℤ) = 1), hrec]
      simp only [Prod.mk.injEq]
      exact ⟨by omega, by decide, trivial⟩
    · -- month 8, Julian
      norm_num [monthLen] at hdmax
      have hrec := revTail_recover (jdZ y 8 d 0 + 32082 + 123) y (275 + d) 9 d
        (by simp only [jdZ, SE_GREG_CAL]; norm_num; omega)
        (by omega) (by omega) (by norm_num) (by omega)
      simp only [revZ, revCorr, SE_GREG_CAL]
      rw [if_neg (by norm_num : ¬(0 : ℤ) = 1), hrec]
      simp only [Prod.mk.injEq]
      exact ⟨by omega, by decide, trivial⟩
    · -- month 9, Julian
      norm_num [monthLen] at hdmax
      have hrec := revTail_recover (jdZ y 9 d 0 + 32082 + 123) y (306 + d) 10 d
        (by simp only [jdZ, SE_GREG_CAL]; norm_num; omega)
        (by omega) (by omega) (by norm_num) (by omega)
      simp only [revZ, revCorr, SE_GREG_CAL]
      rw [if_neg (by norm_num : ¬(0 : ℤ) = 1), hrec]
      simp only [Prod.mk.injEq]
      exact ⟨by omega, by decide, trivial⟩
    · -- month 10, Julian
      norm_num [monthLen] at hdmax
      have hrec := revTail_recover (jdZ y 10 d 0 + 32082 + 123) y (336 + d) 11 d
        (by simp only [jdZ, SE_GREG_CAL]; norm_num; omega)
        (by omega) (by omega) (by norm_num) (by omega)
      simp only [revZ, revCorr, SE_GREG_CAL]
      rw [if_neg (by norm_num : ¬(0 : ℤ) = 1), hrec]
      simp only [Prod.mk.injEq]
      exact ⟨by omega, by decide, trivial⟩
    · -- month 11, Julian
      norm_num [monthLen] at hdmax
      have hrec := revTail_recover (jdZ y 11 d 0 + 32082 + 123) y (367 + d) 12 d
        (by simp only [jdZ, SE_GREG_CAL]; norm_num; omega)
        (by omega) (by omega) (by norm_num) (by omega)
      simp only [revZ, revCorr, SE_GREG_CAL]
      rw [if_neg (by norm_num : ¬(0 : ℤ) = 1), hrec]
      simp only [Prod.mk.injEq]
      exact ⟨by omega, by decide, trivial⟩
    · -- month 12, Julian
      norm_num [monthLen] at hdmax
      have hrec := revTail_recover (jdZ y 12 d 0 + 32082 + 123) y (397 + d) 13 d
        (by simp only [jdZ, SE_GREG_CAL]; norm_num; omega)
        (by omega) (by omega) (by norm_num) (by omega)
      simp only [revZ, revCorr, SE_GREG_CAL]
      rw [if_neg (by norm_num : ¬(0 : ℤ) = 1), hrec]
      simp only [Prod.mk.injEq]
      exact ⟨by omega, by decide, trivial⟩
  · obtain ⟨hy1, hy2⟩ := hy rfl
    interval_cases m
    · -- month 1, Gregorian
      norm_num [monthLen] at hdmax
      have hN : jdZ y 1 d 1
          = 1461 * (y - 1) / 4 + (428 + d) + 1720997 - ((y - 1) / 100 - (y - 1) / 400) := by
        simp only [jdZ, SE_GREG_CAL]
        norm_num
        omega
      have hcg := revCorr_greg (jdZ y 1 d 1) (y - 1) (428 + d) hN (by omega) (by omega)
        (by intro h488; omega)
      have hrec := revTail_recover (1461 * (y - 1) / 4 + (428 + d) + 1753200) (y - 1)
        (428 + d) 14 d rfl (by omega) (by omega) (by norm_num) (by omega)
      simp only [revZ]
      rw [hcg, hrec]
      simp only [Prod.mk.injEq]
      exact ⟨by omega, by decide, trivial⟩
    · -- February, Gregorian
      norm_num [monthLen] at hdmax
      split_ifs at hdmax with hleap
      · have hN : jdZ y 2 d 1
            = 1461 * (y - 1) / 4 + (459 + d) + 1720997 - ((y - 1) / 100 - (y - 1) / 400) := by
          simp only [jdZ, SE_GREG_CAL]
          norm_num
          omega
        have hcg := revCorr_greg (jdZ y 2 d 1) (y - 1) (459 + d) hN (by omega) (by omega)
          (by
            intro h488
            rcases hleap with ⟨h4, h100⟩ | h400
            · exact ⟨by omega, Or.inl (by omega)⟩
            · exact ⟨by omega, Or.inr (by omega)⟩)
        have hrec := revTail_recover (1461 * (y - 1) / 4 + (459 + d) + 1753200) (y - 1)
          (459 + d) 15 d rfl (by omega) (by omega) (by norm_num) (by omega)
        simp only [revZ]
        rw [hcg, hrec]
        simp only [Prod.mk.injEq]
        exact ⟨by omega, by decide, trivial⟩
      · have hN : jdZ y 2 d 1
            = 1461 * (y - 1) / 4 + (459 + d) + 1720997 - ((y - 1) / 100 - (y - 1) / 400) := by
          simp only [jdZ, SE_GREG_CAL]
          norm_num
          omega
        have hcg := revCorr_greg (jdZ y 2 d 1) (y - 1) (459 + d) hN (by omega) (by omega)
          (by intro h488; omega)
        have hrec := revTail_recover (1461 * (y - 1) / 4 + (459 + d) + 1753200) (y - 1)
          (459 + d) 15 d rfl (by omega) (by omega) (by norm_num) (by omega)
        simp only [revZ]
        rw [hcg, hrec]
        simp only [Prod.mk.injEq]
        exact ⟨by omega, by decide, trivial⟩
    · -- month 3, Gregorian
      norm_num [monthLen] at hdmax
      have hN : jdZ y 3 d 1
          = 1461 * y / 4 + (122 + d) + 1720997 - (y / 100 - y / 400) := by
        simp only [jdZ, SE_GREG_CAL]
        norm_num
        omega
      have hcg := revCorr_greg (jdZ y 3 d 1) y (122 + d) hN (by omega) (by omega)
        (by intro h488; omega)
      have hrec := revTail_recover (1461 * y / 4 + (122 + d) + 1753200) y
        (122 + d) 4 d rfl (by omega) (by omega) (by norm_num) (by omega)
      simp only [revZ]
      rw [hcg, hrec]
      simp only [Prod.mk.injEq]
      exact ⟨by omega, by decide, trivial⟩
    · -- month 4, Gregorian
      norm_num [monthLen] at hdmax
      have hN : jdZ y 4 d 1
          = 1461 * y / 4 + (153 + d) + 1720997 - (y / 100 - y / 400) := by
        simp only [jdZ, SE_GREG_CAL]
        norm_num
        omega
      have hcg := revCorr_greg (jdZ y 4 d 1) y (153 + d) hN (by omega) (by omega)
        (by intro h488; omega)
      have hrec := revTail_recover (1461 * y / 4 + (153 + d) + 1753200) y
        (153 + d) 5 d rfl (by omega) (by omega) (by norm_num) (by omega)
      simp only [revZ]
      rw [hcg, hrec]
      simp only [Prod.mk.injEq]
      exact ⟨by omega, by decide, trivial⟩
    · -- month 5, Gregorian
      norm_num [monthLen] at hdmax
      have hN : jdZ y 5 d 1
          = 1461 * y / 4 + (183 + d) + 1720997 - (y / 100 - y / 400) := by
        simp only [jdZ, SE_GREG_CAL]
        norm_num
        omega
      have hcg := revCorr_greg (jdZ y 5 d 1) y (183 + d) hN (by omega) (by omega)
        (by intro h488; omega)
      have hrec := revTail_recover (1461 * y / 4 + (183 + d) + 1753200) y
        (183 + d) 6 d rfl (by omega) (by omega) (by norm_num) (by omega)
      simp only [revZ]
      rw [hcg, hrec]
      simp only [Prod.mk.injEq]
      exact ⟨by omega, by decide, trivial⟩
    · -- month 6, Gregorian
      norm_num [monthLen] at hdmax
      have hN : jdZ y 6 d 1
          = 1461 * y / 4 + (214 + d) + 1720997 - (y / 100 - y / 400) := by
        simp only [jdZ, SE_GREG_CAL]
        norm_num
        omega
      have hcg := revCorr_greg (jdZ y 6 d 1) y (214 + d) hN (by omega) (by omega)
        (by intro h488; omega)
      have hrec := revTail_recover (1461 * y / 4 + (214 + d) + 1753200) y
        (214 + d) 7 d rfl (by omega) (by omega) (by norm_num) (by omega)
      simp only [revZ]
      rw [hcg, hrec]
      simp only [Prod.mk.injEq]
      exact ⟨by omega, by decide, trivial⟩
    · -- month 7, Gregorian
      norm_num [monthLen] at hdmax
      have hN : jdZ y 7 d 1
          = 1461 * y / 4 + (244 + d) + 1720997 - (y / 100 - y / 400) := by
        simp only [jdZ, SE_GREG_CAL]
        norm_num
        omega
      have hcg := revCorr_greg (jdZ y 7 d 1) y (244 + d) hN (by omega) (by omega)
        (by intro h488; omega)
      have hrec := revTail_recover (1461 * y / 4 + (244 + d) + 1753200) y
        (244 + d) 8 d rfl (by omega) (by omega) (by norm_num) (by omega)
      simp only [revZ]
      rw [hcg, hrec]
      simp only [Prod.mk.injEq]
      exact ⟨by omega, by decide, trivial⟩
    · -- month 8, Gregorian
      norm_num [monthLen] at hdmax
      have hN : jdZ y 8 d 1
          = 1461 * y / 4 + (275 + d) + 1720997 - (y / 100 - y / 400) := by
        simp only [jdZ, SE_GREG_CAL]
        norm_num
        omega
      have hcg := revCorr_greg (jdZ y 8 d 1) y (275 + d) hN (by omega) (by omega)
        (by intro h488; omega)
      have hrec := revTail_recover (1461 * y / 4 + (275 + d) + 1753200) y
        (275 + d) 9 d rfl (by omega) (by omega) (by norm_num) (by omega)
      simp only [revZ]
      rw [hcg, hrec]
      simp only [Prod.mk.injEq]
      exact ⟨by omega, by decide, trivial⟩
    · -- month 9, Gregorian
      norm_num [monthLen] at hdmax
      have hN : jdZ y 9 d 1
          = 1461 * y / 4 + (306 + d) + 1720997 - (y / 100 - y / 400) := by
        simp only [jdZ, SE_GREG_CAL]
        norm_num
        omega
      have hcg := revCorr_greg (jdZ y 9 d 1) y (306 + d) hN (by omega) (by omega)
        (by intro h488; omega)
      have hrec := revTail_recover (1461 * y / 4 + (306 + d) + 1753200) y
        (306 + d) 10 d rfl (by omega) (by omega) (by norm_num) (by omega)
      simp only [revZ]
      rw [hcg, hrec]
      simp only [Prod.mk.injEq]
      exact ⟨by omega, by decide, trivial⟩
    · -- month 10, Gregorian
      norm_num [monthLen] at hdmax
      have hN : jdZ y 10 d 1
          = 1461 * y / 4 + (336 + d) + 1720997 - (y / 100 - y / 400) := by
        simp only [jdZ, SE_GREG_CAL]
        norm_num
        omega
      have hcg := revCorr_greg (jdZ y 10 d 1) y (336 + d) hN (by omega) (by omega)
        (by intro h488; omega)
      have hrec := revTail_recover (1461 * y / 4 + (336 + d) + 1753200) y
        (336 + d) 11 d rfl (by omega) (by omega) (by norm_num) (by omega)
      simp only [revZ]
      rw [hcg, hrec]
      simp only [Prod.mk.injEq]
      exact ⟨by omega, by decide, trivial⟩
    · -- month 11, Gregorian
      norm_num [monthLen] at hdmax
      have hN : jdZ y 11 d 1
          = 1461 * y / 4 + (367 + d) + 1720997 - (y / 100 - y / 400) := by
        simp only [jdZ, SE_GREG_CAL]
        norm_num
        omega
      have hcg := revCorr_greg (jdZ y 11 d 1) y (367 + d) hN (by omega) (by omega)
        (by intro h488; omega)
      have hrec := revTail_recover (1461 * y / 4 + (367 + d) + 1753200) y
        (367 + d) 12 d rfl (by omega) (by omega) (by norm_num) (by omega)
      simp only [revZ]
      rw [hcg, hrec]
      simp only [Prod.mk.injEq]
      exact ⟨by omega, by decide, trivial⟩
    · -- month 12, Gregorian
      norm_num [monthLen] at hdmax
      have hN : jdZ y 12 d 1
          = 1461 * y / 4 + (397 + d) + 1720997 - (y / 100 - y / 400) := by
        simp only [jdZ, SE_GREG_CAL]
        norm_num
        omega
      have hcg := revCorr_greg (jdZ y 12 d 1) y (397 + d) hN (by omega) (by omega)
        (by intro h488; omega)
      have hrec := revTail_recover (1461 * y / 4 + (397 + d) + 1753200) y
        (397 + d) 13 d rfl (by omega) (by omega) (by norm_num) (by omega)
      simp only [revZ]
      rw [hcg, hrec]
      simp only [Prod.mk.injEq]
      exact ⟨by omega, by decide, trivial⟩

instance validDate.instDecidable (y m d gf : ℤ) : Decidable (validDate y m d gf) :=
  inferInstanceAs (Decidable (1 ≤ m ∧ m ≤ 12 ∧ 1 ≤ d ∧ d ≤ monthLen y m gf))

/-- The round trip fails in the Gregorian calendar at the valid date
4870300-03-01, which comes back as 4870300-02-29. -/
theorem C9_roundtrip_counterexample :
    validDate 4870300 3 1 1 ∧
      SweRevjul (SweJulday 4870300 3 1 0 1) 1 = (4870300, 2, 29, 0) ∧
      SweRevjul (SweJulday 4870300 3 1 0 1) 1 ≠ (4870300, 3, 1, 0) := by
  have hjdz : jdZ 4870300 3 1 1 = 1780561667 := by decide
  have hrz : revZ 1780561667 1 = (4870300, 2, 29) := by decide
  have hmain : SweRevjul (SweJulday 4870300 3 1 0 1) 1 = (4870300, 2, 29, 0) := by
    rw [SweJulday_eq, hjdz,
      SweRevjul_eq 1780561667 0 (by norm_num) (by norm_num) 1, hrz]
  refine ⟨by decide, hmain, ?_⟩
  rw [hmain]
  intro hco
  simp only [Prod.mk.injEq] at hco
  exact absurd hco.2.1 (by norm_num)

/-- Amended C9: on valid dates with hour in `[0, 24)`, `SweRevjul`
inverts `SweJulday` exactly — for every year in the Julian calendar,
and for `|year| ≤ 4000000` in the Gregorian calendar. -/
theorem C9_revjul_julday_roundtrip_amended (y m d : ℤ) (h : ℚ) (gf : ℤ)
    (hgf : gf = 0 ∨ gf = 1) (hv : validDate y m d gf)
    (hh0 : 0 ≤ h) (hh24 : h < 24)
    (hy : gf = 1 → -4000000 ≤ y ∧ y ≤ 4000000) :
    SweRevjul (SweJulday y m d h gf) gf = (y, m, d, h) := by
  rw [SweJulday_eq, SweRevjul_eq (jdZ y m d gf) h hh0 hh24 gf,
    roundtrip_core y m d gf hgf hv hy]

/-- Witness for amended C9: 2000-02-29 (a Gregorian leap day in a
century year divisible by 400) at hour 6 makes the round trip. -/
theorem C9_roundtrip_witness :
    ((1 : ℤ) = 0 ∨ (1 : ℤ) = 1) ∧ validDate 2000 2 29 1 ∧
      ((0 : ℚ) ≤ 6 ∧ (6 : ℚ) < 24) ∧
      ((1 : ℤ) = 1 → -4000000 ≤ (2000 : ℤ) ∧ (2000 : ℤ) ≤ 4000000) ∧
      SweRevjul (SweJulday 2000 2 29 6 1) 1 = (2000, 2, 29, 6) :=
  ⟨Or.inr rfl, by decide, ⟨by norm_num, by norm_num⟩,
    fun _ => ⟨by norm_num, by norm_num⟩,
    C9_revjul_julday_roundtrip_amended 2000 2 29 6 1 (Or.inr rfl) (by decide)
      (by norm_num) (by norm_num) (fun _ => ⟨by norm_num, by norm_num⟩)⟩


end

end Segoport
